import Mathlib

/-!
The asset manager `CParaWorldAsset` of ParaEngine.

A shallow embedding of `Client/trunk/ParaEngineClient/Core/ParaWorldAsset.cpp`:
the asset remap table and its text file, the disk search `DoAssetSearch`,
`LoadMesh`, `LoadTexture`, `UnloadAssetByKeyName`, `LoadParaXByID`,
`GetChildAttributeObject`, and the call order of the device, garbage-collection
and teardown operations.

A C++ `std::string` is a list of characters, one list element per `char`.
Reading index `size()` yields the terminating NUL, as in C++.
-/

namespace ParaEngine

/-! ## Strings -/

/-- A `std::string` (or a NUL-terminated buffer without its terminator). -/
abbrev Str := List Char

/-- The character `s[i]`; the position one past the end holds the terminator. -/
def charAt (s : Str) (i : Nat) : Char := s.getD i '\x00'

/-- The C string `s.c_str()` as seen by `%s` and by `std::string(const char*)`:
the characters up to the first NUL. -/
def c_str (s : Str) : Str := s.takeWhile (fun c => c != '\x00')

/-- The comparison `std::string::operator<`: lexicographic on character values. -/
def strLt : Str → Str → Bool
  | [], [] => false
  | [], _ :: _ => true
  | _ :: _, [] => false
  | a :: as, b :: bs => if a < b then true else if a = b then strLt as bs else false

/-! ## The remap table `m_AssetMap : std::map<string, string>` -/

/-- A `std::map<string,string>`, listed in iteration order. -/
abbrev AssetMap := List (Str × Str)

namespace AssetMap

/-- The lookup `m.find(k)`: `none` is `m.end()`, `some v` is `iter->second`. -/
def find : AssetMap → Str → Option Str
  | [], _ => none
  | (k', v') :: t, k => if k' = k then some v' else find t k

/-- The assignment `m[k] = v`: overwrite the entry for `k`, or insert a new one at
its place in key order. -/
def set : AssetMap → Str → Str → AssetMap
  | [], k, v => [(k, v)]
  | (k', v') :: t, k, v =>
    if strLt k k' then (k, v) :: (k', v') :: t
    else if k = k' then (k, v) :: t
    else (k', v') :: set t k v

/-- The keys of a `std::map` are strictly increasing in iteration order. -/
def Sorted : AssetMap → Prop
  | [] => True
  | [_] => True
  | (k₁, _) :: (k₂, v₂) :: t => strLt k₁ k₂ = true ∧ Sorted ((k₂, v₂) :: t)

instance Sorted.instDecidable : (m : AssetMap) → Decidable (Sorted m)
  | [] => isTrue trivial
  | [_] => isTrue trivial
  | (k₁, _) :: (k₂, v₂) :: t =>
    match Sorted.instDecidable ((k₂, v₂) :: t) with
    | isTrue h =>
      if hk : strLt k₁ k₂ = true then isTrue ⟨hk, h⟩ else isFalse (fun h' => hk h'.1)
    | isFalse h => isFalse (fun h' => h h'.2)

end AssetMap

/-! ## The remap file `temp/assetmap.txt` -/

/-- The header line written by `SaveAssetFileMapping`, without its line break. -/
def assetMapHeader : Str := "-- automatically generated by ParaEngine Asset manager.".toList

/-- One `WriteFormated("%s=%s\n", key, value)` line, without its line break. -/
def entryLine (e : Str × Str) : Str := c_str e.1 ++ '=' :: c_str e.2

/-- The text of a file made of the given lines, each followed by `\n`. -/
def joinLines : List Str → Str
  | [] => []
  | l :: ls => l ++ '\n' :: joinLines ls

/-- The file content written by the body of `SaveAssetFileMapping`: the header,
then one line per entry in the iteration order of the map. -/
def assetMapText (m : AssetMap) : Str := joinLines (assetMapHeader :: m.map entryLine)

/-- A character that ends a line of a text file. -/
def isLineBreak (c : Char) : Bool := c == '\n' || c == '\r'

/-- Read the characters of one line into a buffer of `n` characters: the buffer
and the unread rest of the file. The line break that ends the line is consumed. -/
def readLine : Nat → Str → Str × Str
  | 0, t => ([], t)
  | _ + 1, [] => ([], [])
  | n + 1, c :: t =>
    if isLineBreak c then ([], t)
    else ((c :: (readLine n t).1), (readLine n t).2)

/-- Modelled from the spec: `CParaFile::GetNextLine(buf, sizeBuf)` is declared outside
this source file. The remap file is "flat text, one mapping per line": the call
skips the line breaks before the next line, copies at most `sizeBuf` characters of
that line into `buf` and returns their number (`buf.length`), which is 0 at the
end of the file. The result is the buffer and the unread rest. -/
def GetNextLine (text : Str) (sizeBuf : Nat) : Str × Str :=
  readLine sizeBuf (text.dropWhile isLineBreak)

/-- The inner loop of the constructor, `for (int i=0; buf[i]!='\0'; ++i)`, from
index `i` on: at every `'='` the buffer gets a NUL at that position and
`m_AssetMap[buf] = &(buf[i+1])` is executed. The first argument bounds the
number of iterations. -/
def loaderLoop : Nat → Str → Nat → AssetMap → AssetMap
  | 0, _, _, m => m
  | fuel + 1, buf, i, m =>
    if charAt buf i = '\x00' then m
    else if charAt buf i = '=' then
      loaderLoop fuel (buf.set i '\x00') (i + 1)
        (m.set (c_str (buf.set i '\x00')) (c_str ((buf.set i '\x00').drop (i + 1))))
    else loaderLoop fuel buf (i + 1) m

/-- The constructor's handling of one line buffer. -/
def loadLine (m : AssetMap) (buf : Str) : AssetMap :=
  loaderLoop (buf.length + 1) buf 0 m

/-- The loop `while (file.GetNextLine(buf, 2048) > 0)` of the constructor on the
unread text. The first argument bounds the number of lines read. -/
def loadLines : Nat → Str → AssetMap → AssetMap
  | 0, _, m => m
  | fuel + 1, text, m =>
    if 0 < (GetNextLine text 2048).1.length then
      loadLines fuel (GetNextLine text 2048).2 (loadLine m (GetNextLine text 2048).1)
    else m

/-- The line loader of the constructor on a whole file, starting from the empty
table. Every iteration consumes at least one character, so `text.length + 1`
iterations are never exhausted. -/
def loadAssetMapText (text : Str) : AssetMap :=
  loadLines (text.length + 1) text []


/-- A key or value that the line format can carry: it has none of `=`, line feed,
carriage return and NUL. -/
def plainField (s : Str) : Bool :=
  s.all (fun c => c != '=' && c != '\n' && c != '\r' && c != '\x00')

/-- An entry whose key and value are plain and whose line fits the line buffer. -/
def plainEntry (e : Str × Str) : Bool :=
  plainField e.1 && plainField e.2 && decide (e.1.length + e.2.length + 1 < 2048)

/-- A line that can be read back whole: not empty, without line break, shorter than
the line buffer. -/
def GoodLine (line : Str) : Prop :=
  line ≠ [] ∧ (∀ c ∈ line, isLineBreak c = false) ∧ line.length < 2048


/-! ## The file system and the path utilities -/

/-- The directories asked of `CParaFile::GetCurDirectory` in this file. -/
inductive AppDir
  | APP_ROOT_DIR
  | APP_MODEL_DIR
  | APP_CHARACTER_DIR
  deriving DecidableEq, Repr

/-- A `CSearchResult`: `GetRootPath()` and the items `GetItem(i)`;
`GetNumOfResult()` is the number of items. -/
structure CSearchResult where
  rootPath : Str
  items : List Str
  deriving DecidableEq, Repr

/-- The disk and the path services that the asset manager calls and that are
declared outside this source file. `SearchFiles dir pattern` stands for
`CFileManager::SearchFiles(dir, pattern, "", 7, 1)`, `none` being a null result. -/
structure FileSystem where
  DoesFileExist : Str → Bool
  SearchFiles : Str → Str → Option CSearchResult
  ToCanonicalFilePath : Str → Str
  DecodePath : Str → Str
  GetRelativePath : Str → Str → Str
  GetCurDirectory : AppDir → Str

/-- The position `s.find_first_of(chars)`; `none` is `string::npos`. -/
def find_first_of (s chars : Str) : Option Nat :=
  match s with
  | [] => none
  | c :: t => if chars.contains c then some 0 else (find_first_of t chars).map (· + 1)

/-- Modelled from the spec: `CParaFile::GetFileName` is declared outside this source
file; it gives "the requested file's base name and extension", the text after the
last directory separator. -/
def GetFileName (path : Str) : Str :=
  (path.reverse.takeWhile (fun c => !(c == '/' || c == '\\'))).reverse

/-- Modelled from the spec: `CParaFile::GetFileExtension` is declared outside this
source file; it gives the requested file's extension, the text after the last `.`
of the file name, empty when the name has no `.`. -/
def GetFileExtension (path : Str) : Str :=
  if (GetFileName path).contains '.' then
    ((GetFileName path).reverse.takeWhile (fun c => c != '.')).reverse
  else []

/-- The test `result==0 || result->GetNumOfResult()==0`. -/
def noResult (result : Option CSearchResult) : Bool :=
  match result with
  | none => true
  | some r => r.items.length == 0

/-- The pattern of the second, wider search of `DoAssetSearch`: the file name cut
at `find_first_of("_.")` when that is not `npos`, then `"*."` and the extension. -/
def fuzzyPattern (AssetFile : Str) : Str :=
  let sExt := GetFileExtension AssetFile
  let sFileName := GetFileName AssetFile
  let sFileName :=
    match find_first_of sFileName "_.".toList with
    | some nPos => sFileName.take nPos
    | none => sFileName
  sFileName ++ "*.".toList ++ sExt

/-- What a call of `DoAssetSearch` leaves behind: the returned flag, the in/out
argument `AssetFile`, the remap table, and the `SearchFiles` calls it issued, in
order, each as (directory, pattern). -/
structure AssetSearch where
  ret : Bool
  AssetFile : Str
  m_AssetMap : AssetMap
  searches : List (Str × Str)
  deriving DecidableEq, Repr

/-- The function `CParaWorldAsset::DoAssetSearch(string& AssetFile, const char* searchDir)`. -/
def DoAssetSearch (fs : FileSystem) (m_AssetMap : AssetMap) (AssetFile searchDir : Str) :
    AssetSearch :=
  if fs.DoesFileExist AssetFile then
    ⟨true, AssetFile, m_AssetMap, []⟩
  else
    match m_AssetMap.find AssetFile with
    | some second => ⟨true, second, m_AssetMap, []⟩
    | none =>
      let sFileName := GetFileName AssetFile
      let first := fs.SearchFiles searchDir sFileName
      let result :=
        if noResult first then fs.SearchFiles searchDir (fuzzyPattern AssetFile) else first
      let searches :=
        if noResult first then [(searchDir, sFileName), (searchDir, fuzzyPattern AssetFile)]
        else [(searchDir, sFileName)]
      match result with
      | some ⟨rootPath, item0 :: _⟩ =>
        let sFileName :=
          fs.GetRelativePath (fs.ToCanonicalFilePath (rootPath ++ item0))
            (fs.GetCurDirectory AppDir.APP_ROOT_DIR)
        ⟨true, sFileName, m_AssetMap.set AssetFile sFileName, searches⟩
      | _ => ⟨false, AssetFile, m_AssetMap, searches⟩


/-- An example disk: the application root `/app/` holds the single file
`models/tree_a_v.x`; searches are made in `models/`. -/
def treeDisk : FileSystem where
  DoesFileExist := fun p => p == "models/tree_a_v.x".toList
  SearchFiles := fun dir pattern =>
    if dir == "models/".toList &&
        (pattern == "tree*.x".toList || pattern == "tree_a_v.x".toList) then
      some ⟨"/app/models/".toList, ["tree_a_v.x".toList]⟩
    else none
  ToCanonicalFilePath := fun p => p
  DecodePath := fun p => p
  GetRelativePath := fun path root =>
    if root.isPrefixOf path then path.drop root.length else path
  GetCurDirectory := fun d =>
    match d with
    | AppDir.APP_ROOT_DIR => "/app/".toList
    | AppDir.APP_MODEL_DIR => "models/".toList
    | AppDir.APP_CHARACTER_DIR => "character/".toList

/-- An example disk without any file: no path exists and every search is empty. -/
def emptyDisk : FileSystem where
  DoesFileExist := fun _ => false
  SearchFiles := fun _ _ => none
  ToCanonicalFilePath := fun p => p
  DecodePath := fun p => p
  GetRelativePath := fun path _ => path
  GetCurDirectory := fun d =>
    match d with
    | AppDir.APP_ROOT_DIR => "/app/".toList
    | AppDir.APP_MODEL_DIR => "models/".toList
    | AppDir.APP_CHARACTER_DIR => "character/".toList


/-! ## Build configuration -/

/-- The preprocessor macros that select code in this source file. -/
structure BuildConfig where
  USE_ASSET_MAP : Bool
  USE_DIRECTX_RENDERER : Bool
  USE_FLASH_MANAGER : Bool
  PARAENGINE_MOBILE : Bool
  deriving DecidableEq, Repr

/-- The configuration that the source file itself fixes: its line 48,
`// #define USE_ASSET_MAP`, leaves `USE_ASSET_MAP` undefined. The renderer macros
come from the build. -/
def sourceConfig (directx flash mobile : Bool) : BuildConfig :=
  ⟨false, directx, flash, mobile⟩

/-! ## Entities and registries -/

/-- The values of `AssetEntity::AssetState` that this source file names, and the rest. -/
inductive AssetState
  | ASSET_STATE_NORMAL
  | ASSET_STATE_LOCAL
  | ASSET_STATE_REMOTE
  | ASSET_STATE_FAILED_TO_LOAD
  | other (n : Nat)
  deriving DecidableEq, Repr

/-- The values of `TextureEntity::_SurfaceType` that this source file names, and the rest. -/
inductive SurfaceType
  | StaticTexture
  | TextureSequence
  | FlashTexture
  | HTMLTexture
  | other (n : Nat)
  deriving DecidableEq, Repr

/-- The size record behind `TextureEntity::GetTextureInfo()`. -/
structure TextureInfo where
  m_width : Int
  m_height : Int
  deriving DecidableEq, Repr

/-- A texture entity: the fields that `LoadTexture` and `UnloadAssetByKeyName` touch;
`loaded` is the answer of `IsLoaded()`. -/
structure TextureEntity where
  identifier : Str
  key : Str
  SurfaceType : SurfaceType
  state : AssetState
  localFileName : Str
  asyncLoad : Bool
  textureInfo : Option TextureInfo
  loaded : Bool
  deriving DecidableEq, Repr

/-- A mesh entity: identity, whether `Init()` was called on it, its state, its local
file name and the answer of `IsLoaded()`. -/
structure MeshEntity where
  identifier : Str
  key : Str
  initialized : Bool
  state : AssetState
  localFileName : Str
  loaded : Bool
  deriving DecidableEq, Repr

/-- An animated-model (ParaX) entity, with the same fields as a mesh entity. -/
structure ParaXEntity where
  identifier : Str
  key : Str
  initialized : Bool
  state : AssetState
  localFileName : Str
  loaded : Bool
  deriving DecidableEq, Repr

/-- A CAD model entity (DirectX builds), with the same fields as a mesh entity. -/
structure CadModel where
  identifier : Str
  key : Str
  initialized : Bool
  state : AssetState
  localFileName : Str
  loaded : Bool
  deriving DecidableEq, Repr

/-- Modelled from the spec: the typed registries (`AssetManager` instances) are declared
outside this source file. A registry is "a keyed store of Asset Entities of one kind";
an entity is addressed by its key, which stands for the entity pointer. -/
structure AssetManager (E : Type) where
  m_items : List (Str × E)

namespace AssetManager

/-- The first entity listed under `key`. -/
def lookup {E : Type} : List (Str × E) → Str → Option E
  | [], _ => none
  | (k, e) :: t, key => if k = key then some e else lookup t key

/-- The entity registered under `key`, if any (`get(key)`). -/
def get {E : Type} (mgr : AssetManager E) (key : Str) : Option E :=
  lookup mgr.m_items key

/-- Modelled from the spec: "`CreateEntity(identifier, key) → (entity, wasNewlyCreated)`.
If `key` already exists, returns the existing entity and `wasNewlyCreated=false`";
otherwise a fresh entity `fresh` is registered under `key`. The returned entity is the
one under `key` in the resulting registry. -/
def CreateEntity {E : Type} (mgr : AssetManager E) (fresh : E) (key : Str) :
    AssetManager E × Bool :=
  match mgr.get key with
  | some _ => (mgr, false)
  | none => (⟨mgr.m_items ++ [(key, fresh)]⟩, true)

/-- Apply `f` to the entity registered under `key` (a write through the entity pointer). -/
def modify {E : Type} (mgr : AssetManager E) (key : Str) (f : E → E) : AssetManager E :=
  ⟨mgr.m_items.map (fun ke => (ke.1, if ke.1 = key then f ke.2 else ke.2))⟩

end AssetManager


/-! ## Components and operations -/

/-- The registries, managers and device resources on which the asset manager's
lifecycle functions act; `AssetManager` is the asset manager itself. -/
inductive Component
  | TextureManager
  | FontManager
  | ParaXManager
  | MeshManager
  | EffectsManager
  | SceneState
  | FlashManager
  | HTMLBrowserManager
  | VoxelTerrainManager
  | D3DXSpriteManager
  | CadModelManager
  | ShadowSquareVB
  | DXFile
  | AsyncLoader
  | OceanManager
  | SequenceManager
  | BufferPickingManager
  | VertexBufferPoolManager
  | CharacterDB
  | DataProviderManager
  | ICDBManager
  | DatabaseManager
  | AssetManager
  | DynamicVBManager
  | MoviePlatform
  | OcclusionQuery
  | OcclusionQueryBank
  | FileManager
  deriving DecidableEq, Repr

/-- The operations invoked in the lifecycle functions followed here. -/
inductive Operation
  | DeleteDeviceObjects
  | Cleanup
  | Stop
  | CloseDB
  | Finalize
  | SAFE_RELEASE
  | OnDeleteDeviceObjects
  | OnCleanup
  | DeleteTempDiskTextures
  | SaveAssetFileMapping
  | InitDeviceObjects
  | RestoreDeviceObjects
  | InvalidateDeviceObjects
  | OnInvalidateDeviceObjects
  | SAFE_DELETE
  | GarbageCollectAll
  deriving DecidableEq, Repr

/-- One call: the component acted on and the operation. -/
abbrev Call := Component × Operation

/-- The function `CParaWorldAsset::CreateAttributeModel`: the content of
`m_attribute_models` after it, in order (the identifiers it sets on the managers are
not followed). -/
def CreateAttributeModel (cfg : BuildConfig) : List Component :=
  [Component.TextureManager, Component.FontManager, Component.DatabaseManager,
   Component.BufferPickingManager, Component.MeshManager, Component.ParaXManager,
   Component.SequenceManager, Component.EffectsManager, Component.VertexBufferPoolManager,
   Component.FileManager] ++
  (if cfg.USE_DIRECTX_RENDERER then [Component.VoxelTerrainManager] else [])


/-! ## The asset manager -/

/-- The state of the asset manager and of the registries it reaches that this
development follows. The ParaX and CAD-model registries are empty unless given. -/
structure CParaWorldAsset where
  m_bAsyncLoading : Bool
  m_bUseAssetSearch : Bool
  m_AssetMap : AssetMap
  asyncLoaderWorkers : Nat
  TextureManager : AssetManager TextureEntity
  MeshManager : AssetManager MeshEntity
  ParaXManager : AssetManager ParaXEntity := ⟨[]⟩
  CadModelManager : AssetManager CadModel := ⟨[]⟩
  m_attribute_models : List Component := []

/-- Modelled from the spec: `CParaFile` is declared outside this source file. The remap
file is "enabled by the presence of a sentinel control file": an opened file is `none`
when `temp/assetmap.txt` is absent and `some text` when it is present, and `isEof()`
right after opening is true exactly when the file is absent (the comment on source
line 78 reads the test this way). -/
def isEof (file : Option Str) : Bool := file.isNone

/-- The constructor `CParaWorldAsset::CParaWorldAsset`, given the content of
`temp/assetmap.txt` and the registries as they are at that time: asset search is
switched on and the file is loaded only inside `#ifdef USE_ASSET_MAP`. -/
def construct (cfg : BuildConfig) (file : Option Str) (textures : AssetManager TextureEntity)
    (meshes : AssetManager MeshEntity) : CParaWorldAsset :=
  let m_bUseAssetSearch := if cfg.USE_ASSET_MAP then !isEof file else false
  let m_AssetMap :=
    if cfg.USE_ASSET_MAP && m_bUseAssetSearch then loadAssetMapText (file.getD []) else []
  { m_bAsyncLoading := true
    m_bUseAssetSearch := m_bUseAssetSearch
    m_AssetMap := m_AssetMap
    asyncLoaderWorkers := if cfg.PARAENGINE_MOBILE then 1 else 2
    TextureManager := textures
    MeshManager := meshes
    m_attribute_models := CreateAttributeModel cfg }

/-- Modelled from the spec: the entity that the mesh registry creates for a new key;
"side effect of creation: entity enters `Unloaded` state" (`ASSET_STATE_NORMAL`), not
yet initialised, with no local file name and nothing loaded. -/
def freshMesh (sIdentifier key : Str) : MeshEntity :=
  { identifier := sIdentifier
    key := key
    initialized := false
    state := AssetState.ASSET_STATE_NORMAL
    localFileName := []
    loaded := false }

/-- The function `CParaWorldAsset::LoadMesh`: the new state and the key of the entity
it returns. The flag returned by `DoAssetSearch` is not looked at. -/
def LoadMesh (fs : FileSystem) (w : CParaWorldAsset) (sIdentifier fileName : Str) :
    CParaWorldAsset × Str :=
  let sFileName := fs.ToCanonicalFilePath fileName
  let search :=
    if w.m_bUseAssetSearch then
      some (DoAssetSearch fs w.m_AssetMap sFileName (fs.GetCurDirectory AppDir.APP_MODEL_DIR))
    else none
  let sFileName :=
    match search with
    | some r => r.AssetFile
    | none => sFileName
  let m_AssetMap :=
    match search with
    | some r => r.m_AssetMap
    | none => w.m_AssetMap
  let res := w.MeshManager.CreateEntity (freshMesh sIdentifier sFileName) sFileName
  let meshes :=
    if res.2 then res.1.modify sFileName (fun e => { e with initialized := true }) else res.1
  ({ w with m_AssetMap := m_AssetMap, MeshManager := meshes }, sFileName)

/-! ## `LoadTexture` -/

/-- Modelled from the spec: the entity that the texture registry creates for a new key;
"side effect of creation: entity enters `Unloaded` state" (`ASSET_STATE_NORMAL`), with
no local file name, no size record and nothing loaded yet. -/
def freshTexture (sIdentifier key : Str) : TextureEntity :=
  { identifier := sIdentifier
    key := key
    SurfaceType := SurfaceType.StaticTexture
    state := AssetState.ASSET_STATE_NORMAL
    localFileName := []
    asyncLoad := true
    textureInfo := none
    loaded := false }

/-- The loop `for (int i = 0; i < 3; ++i)` that reads the three sequence digits from
right to left; the first argument is the number of iterations left. -/
def sequenceDigits (fileName : Str) (nSize : Nat) : Nat → Nat → Int → Int
  | 0, _, nTotalTextureSequence => nTotalTextureSequence
  | k + 1, i, nTotalTextureSequence =>
    let s := charAt fileName (nSize - 5 - i)
    if '0' ≤ s ∧ s ≤ '9' then
      sequenceDigits fileName nSize k (i + 1)
        (nTotalTextureSequence + ((s.toNat : Int) - ('0'.toNat : Int)) * (10 : Int) ^ i)
    else -1

/-- The value of `nTotalTextureSequence` after the block under `if (nSize > 9)`. -/
def textureSequenceTotal (fileName : Str) : Int :=
  let nSize := fileName.length
  if nSize > 9 then
    if charAt fileName (nSize - 8) = 'a' ∧ charAt fileName (nSize - 9) = '_' then
      sequenceDigits fileName nSize 3 0 0
    else -1
  else -1

/-- The value of `bIsRemoteFile`. -/
def isRemoteFile (fileName : Str) : Bool :=
  decide (fileName.length > 9) &&
    ((charAt fileName 0 == 'h' && charAt fileName 1 == 't' && charAt fileName 2 == 't' &&
        charAt fileName 3 == 'p' && (charAt fileName 4 == ':' || charAt fileName 5 == ':')) ||
      (charAt fileName 0 == 'f' && charAt fileName 1 == 't' && charAt fileName 2 == 'p' &&
        charAt fileName 3 == ':'))

/-- The test for a name ending in `swf` or `flv`, under `if (nSize > 4)`. -/
def isFlashFile (fileName : Str) : Bool :=
  let nSize := fileName.length
  decide (nSize > 4) &&
    ((charAt fileName (nSize - 3) == 's' && charAt fileName (nSize - 2) == 'w' &&
        charAt fileName (nSize - 1) == 'f') ||
      (charAt fileName (nSize - 3) == 'f' && charAt fileName (nSize - 2) == 'l' &&
        charAt fileName (nSize - 1) == 'v'))

/-- The surface type that `LoadTexture` gives a new entity. -/
def resolvedSurfaceType (fileName : Str) (nSurfaceType : SurfaceType) : SurfaceType :=
  let nSurfaceType :=
    if !isRemoteFile fileName && decide (textureSequenceTotal fileName > 0) then
      SurfaceType.TextureSequence
    else nSurfaceType
  if isFlashFile fileName then SurfaceType.FlashTexture else nSurfaceType

/-- What a call of `LoadTexture` leaves behind: the new state, the key of the returned
entity (`none` is NULL), the scripts passed to `DoString` and the warnings logged
(file name and surface type). -/
structure LoadTextureResult where
  world : CParaWorldAsset
  entity : Option Str
  scripts : List Str
  warnings : List (Str × SurfaceType)

/-- The function `CParaWorldAsset::LoadTexture`. -/
def LoadTexture (fs : FileSystem) (w : CParaWorldAsset) (sIdentifier fileName : Str)
    (nSurfaceType : SurfaceType) : LoadTextureResult :=
  let sFileName := fs.DecodePath (fs.ToCanonicalFilePath fileName)
  if charAt fileName 0 = '<' then
    if charAt fileName 1 = 'h' ∧ charAt fileName 2 = 't' ∧ charAt fileName 3 = 'm' ∧
        charAt fileName 4 = 'l' ∧ charAt fileName 5 = '>' then
      let useName : Option Nat :=
        match find_first_of sFileName "#./\\:".toList with
        | some nPos => if nPos > 0 ∧ charAt sFileName nPos = '#' then some nPos else none
        | none => none
      let sInitURL :=
        match useName with
        | some nPos => sFileName.drop (nPos + 1)
        | none => sFileName.drop 6
      let sKeyName :=
        match useName with
        | some nPos => sFileName.take nPos
        | none => "<html>".toList
      let res := w.TextureManager.CreateEntity (freshTexture sIdentifier sKeyName) sKeyName
      let textures :=
        res.1.modify sKeyName (fun e =>
          { e with localFileName := c_str sInitURL, SurfaceType := SurfaceType.HTMLTexture })
      ⟨{ w with TextureManager := textures }, some sKeyName, [], []⟩
    else ⟨w, none, [], []⟩
  else
    let res := w.TextureManager.CreateEntity (freshTexture sIdentifier sFileName) sFileName
    if res.2 then
      let bIsRemoteFile := isRemoteFile fileName
      let nSurfaceType := resolvedSurfaceType fileName nSurfaceType
      let isStatic := decide (nSurfaceType = SurfaceType.StaticTexture)
      let textures :=
        res.1.modify sFileName (fun e =>
          { e with
            asyncLoad := w.m_bAsyncLoading
            SurfaceType := nSurfaceType
            state := if bIsRemoteFile then AssetState.ASSET_STATE_REMOTE else e.state
            textureInfo :=
              if bIsRemoteFile && isStatic then e.textureInfo.map (fun _ => ⟨-1, -1⟩)
              else e.textureInfo })
      let scripts :=
        if bIsRemoteFile && isStatic then
          ["ParaAsset.GetRemoteTexture(\"".toList ++ sFileName ++ "\");".toList]
        else []
      let warnings :=
        if bIsRemoteFile && !isStatic then [(fileName, nSurfaceType)] else []
      ⟨{ w with TextureManager := textures }, some sFileName, scripts, warnings⟩
    else ⟨w, some sFileName, [], []⟩


/-- The function `CParaWorldAsset::SaveAssetFileMapping`: the new content of
`temp/assetmap.txt`, or `none` when nothing is written. The body is compiled only
under `USE_DIRECTX_RENDERER`; `opened` is the result of `file.OpenFile`. -/
def SaveAssetFileMapping (cfg : BuildConfig) (w : CParaWorldAsset) (opened : Bool) :
    Option Str :=
  if cfg.USE_DIRECTX_RENDERER then
    if w.m_bUseAssetSearch then
      if opened then some (assetMapText w.m_AssetMap) else none
    else none
  else none

/-! ## Call order: device release and teardown -/

/-- The calls made by `CParaWorldAsset::DeleteDeviceObjects`, in order. -/
def DeleteDeviceObjects (cfg : BuildConfig) : List Call :=
  [(Component.TextureManager, Operation.DeleteDeviceObjects),
   (Component.FontManager, Operation.DeleteDeviceObjects),
   (Component.ParaXManager, Operation.DeleteDeviceObjects),
   (Component.MeshManager, Operation.DeleteDeviceObjects),
   (Component.EffectsManager, Operation.DeleteDeviceObjects),
   (Component.SceneState, Operation.DeleteDeviceObjects)] ++
  (if cfg.USE_DIRECTX_RENDERER then
    (if cfg.USE_FLASH_MANAGER then [(Component.FlashManager, Operation.DeleteDeviceObjects)]
      else []) ++
    [(Component.HTMLBrowserManager, Operation.DeleteDeviceObjects),
     (Component.VoxelTerrainManager, Operation.DeleteDeviceObjects),
     (Component.D3DXSpriteManager, Operation.DeleteDeviceObjects),
     (Component.CadModelManager, Operation.DeleteDeviceObjects),
     (Component.ShadowSquareVB, Operation.SAFE_RELEASE)]
  else []) ++
  [(Component.AssetManager, Operation.OnDeleteDeviceObjects)]

/-- The calls made by `CParaWorldAsset::Cleanup`, in order. -/
def Cleanup (cfg : BuildConfig) : List Call :=
  [(Component.AsyncLoader, Operation.Stop),
   (Component.ParaXManager, Operation.Cleanup),
   (Component.MeshManager, Operation.Cleanup),
   (Component.OceanManager, Operation.Cleanup),
   (Component.SequenceManager, Operation.Cleanup)] ++
  (if cfg.USE_DIRECTX_RENDERER then
    [(Component.D3DXSpriteManager, Operation.Cleanup)] ++
    (if cfg.USE_FLASH_MANAGER then [(Component.FlashManager, Operation.Cleanup)] else []) ++
    [(Component.HTMLBrowserManager, Operation.Cleanup),
     (Component.VoxelTerrainManager, Operation.Cleanup),
     (Component.CadModelManager, Operation.Cleanup),
     (Component.DXFile, Operation.SAFE_RELEASE)]
  else []) ++
  [(Component.EffectsManager, Operation.Cleanup),
   (Component.FontManager, Operation.Cleanup),
   (Component.BufferPickingManager, Operation.Cleanup),
   (Component.TextureManager, Operation.Cleanup),
   (Component.VertexBufferPoolManager, Operation.Cleanup),
   (Component.CharacterDB, Operation.CloseDB),
   (Component.DataProviderManager, Operation.Cleanup),
   (Component.ICDBManager, Operation.Finalize),
   (Component.DatabaseManager, Operation.Cleanup),
   (Component.AssetManager, Operation.OnCleanup)]

/-- The calls made by the destructor `CParaWorldAsset::~CParaWorldAsset`, in order:
those of `Cleanup()`, then `DeleteTempDiskTextures()`, then `SaveAssetFileMapping()`. -/
def destructor (cfg : BuildConfig) : List Call :=
  Cleanup cfg ++
  [(Component.AssetManager, Operation.DeleteTempDiskTextures),
   (Component.AssetManager, Operation.SaveAssetFileMapping)]


/-! ## The `<html>` names of `LoadTexture` -/

/-- The characters given to `find_first_of` in the HTML branch of `LoadTexture`. -/
def htmlSeparators : Str := "#./\\:".toList

/-- The position `nPos` of the HTML branch when the test
`nPos > 0 && sFileName[nPos] == '#'` holds, `none` otherwise. -/
def htmlNamePos (sFileName : Str) : Option Nat :=
  match find_first_of sFileName htmlSeparators with
  | some nPos => if nPos > 0 ∧ charAt sFileName nPos = '#' then some nPos else none
  | none => none

/-- The value of `sKeyName` in the HTML branch of `LoadTexture`. -/
def htmlKeyName (sFileName : Str) : Str :=
  match htmlNamePos sFileName with
  | some nPos => sFileName.take nPos
  | none => "<html>".toList

/-- The value of `sInitURL` in the HTML branch of `LoadTexture`. -/
def htmlInitURL (sFileName : Str) : Str :=
  match htmlNamePos sFileName with
  | some nPos => sFileName.drop (nPos + 1)
  | none => sFileName.drop 6

/-- The test `fileName[1]=='h' && ... && fileName[5]=='>'` of `LoadTexture`. -/
def isHtmlName (fileName : Str) : Bool :=
  charAt fileName 1 == 'h' && charAt fileName 2 == 't' && charAt fileName 3 == 'm' &&
    charAt fileName 4 == 'l' && charAt fileName 5 == '>'

/-! ## `UnloadAssetByKeyName` -/

/-- Modelled from the spec: `UnloadAsset()` of an entity is declared outside this
source file; it "unloads its payload", after which the entity is not loaded. -/
def TextureEntity.UnloadAsset (e : TextureEntity) : TextureEntity :=
  { e with loaded := false }

/-- Modelled from the spec: `UnloadAsset()` of a mesh entity "unloads its payload". -/
def MeshEntity.UnloadAsset (e : MeshEntity) : MeshEntity :=
  { e with loaded := false }

/-- Modelled from the spec: `UnloadAsset()` of a ParaX entity "unloads its payload". -/
def ParaXEntity.UnloadAsset (e : ParaXEntity) : ParaXEntity :=
  { e with loaded := false }

/-- Modelled from the spec: `UnloadAsset()` of a CAD model "unloads its payload". -/
def CadModel.UnloadAsset (e : CadModel) : CadModel :=
  { e with loaded := false }

/-- The texture branch of `UnloadAssetByKeyName` on the entity found. -/
def unloadTexture (e : TextureEntity) : TextureEntity :=
  let e := e.UnloadAsset
  let e := { e with localFileName := [] }
  if e.state = AssetState.ASSET_STATE_FAILED_TO_LOAD then
    { e with state := AssetState.ASSET_STATE_NORMAL }
  else e

/-- The mesh branch of `UnloadAssetByKeyName` on the entity found. -/
def unloadMesh (e : MeshEntity) : MeshEntity :=
  { e.UnloadAsset with localFileName := [] }

/-- The ParaX branch of `UnloadAssetByKeyName` on the entity found. -/
def unloadParaX (e : ParaXEntity) : ParaXEntity :=
  { e.UnloadAsset with localFileName := [] }

/-- The CAD-model branch of `UnloadAssetByKeyName` on the entity found. -/
def unloadCadModel (e : CadModel) : CadModel :=
  { e.UnloadAsset with localFileName := [] }

/-- The function `CParaWorldAsset::UnloadAssetByKeyName`: the new state and the
returned flag. -/
def UnloadAssetByKeyName (cfg : BuildConfig) (w : CParaWorldAsset) (keyname : Str) :
    CParaWorldAsset × Bool :=
  let sFileExt := GetFileExtension keyname
  if sFileExt = "dds".toList ∨ sFileExt = "png".toList then
    match w.TextureManager.get keyname with
    | some e =>
      if e.state = AssetState.ASSET_STATE_FAILED_TO_LOAD ∨ e.loaded = true then
        ({ w with TextureManager := w.TextureManager.modify keyname unloadTexture }, true)
      else (w, false)
    | none => (w, false)
  else if sFileExt = "x".toList ∨ sFileExt = "xml".toList then
    match w.MeshManager.get keyname with
    | some (MeshEntity.mk _ _ _ _ _ true) =>
      ({ w with MeshManager := w.MeshManager.modify keyname unloadMesh }, true)
    | _ =>
      match w.ParaXManager.get keyname with
      | some (ParaXEntity.mk _ _ _ _ _ true) =>
        ({ w with ParaXManager := w.ParaXManager.modify keyname unloadParaX }, true)
      | _ => (w, false)
  else if cfg.USE_DIRECTX_RENDERER = true ∧ sFileExt = "iges".toList then
    match w.CadModelManager.get keyname with
    | some (CadModel.mk _ _ _ _ _ true) =>
      ({ w with CadModelManager := w.CadModelManager.modify keyname unloadCadModel }, true)
    | _ => (w, false)
  else (w, false)

/-! ## Call order: garbage collection and device invalidation -/

/-- The calls made by `CParaWorldAsset::GarbageCollectAll`, in order. -/
def GarbageCollectAll (cfg : BuildConfig) : List Call :=
  [(Component.MeshManager, Operation.GarbageCollectAll),
   (Component.ParaXManager, Operation.GarbageCollectAll),
   (Component.EffectsManager, Operation.GarbageCollectAll)] ++
  (if cfg.USE_DIRECTX_RENDERER then
    [(Component.D3DXSpriteManager, Operation.GarbageCollectAll),
     (Component.SequenceManager, Operation.GarbageCollectAll),
     (Component.HTMLBrowserManager, Operation.GarbageCollectAll),
     (Component.VoxelTerrainManager, Operation.GarbageCollectAll),
     (Component.CadModelManager, Operation.GarbageCollectAll)]
  else []) ++
  [(Component.FontManager, Operation.GarbageCollectAll),
   (Component.DatabaseManager, Operation.GarbageCollectAll),
   (Component.BufferPickingManager, Operation.GarbageCollectAll),
   (Component.TextureManager, Operation.GarbageCollectAll)]

/-- The registries into which the `Load` functions of this source file create
entities: `LoadTexture`, `LoadGDIFont`, `LoadDatabase`, `LoadBufferPick`, `LoadMesh`,
`LoadParaX`, `LoadEffectFile` and `LoadSequence`, none of them inside an `#ifdef`. -/
def loadRegistries : List Component :=
  [Component.TextureManager, Component.FontManager, Component.DatabaseManager,
   Component.BufferPickingManager, Component.MeshManager, Component.ParaXManager,
   Component.EffectsManager, Component.SequenceManager]

/-- The calls made by `CParaWorldAsset::InvalidateDeviceObjects`, in order, when
`m_pOcclusionQueryBanks` holds `nBanks` banks. -/
def InvalidateDeviceObjects (cfg : BuildConfig) (nBanks : Nat) : List Call :=
  [(Component.TextureManager, Operation.InvalidateDeviceObjects),
   (Component.FontManager, Operation.InvalidateDeviceObjects),
   (Component.MeshManager, Operation.InvalidateDeviceObjects),
   (Component.EffectsManager, Operation.InvalidateDeviceObjects),
   (Component.DynamicVBManager, Operation.InvalidateDeviceObjects)] ++
  (if cfg.USE_DIRECTX_RENDERER then
    (if cfg.USE_FLASH_MANAGER then [(Component.FlashManager, Operation.InvalidateDeviceObjects)]
      else []) ++
    [(Component.HTMLBrowserManager, Operation.InvalidateDeviceObjects),
     (Component.VoxelTerrainManager, Operation.InvalidateDeviceObjects),
     (Component.CadModelManager, Operation.InitDeviceObjects),
     (Component.MoviePlatform, Operation.InvalidateDeviceObjects),
     (Component.OcclusionQuery, Operation.SAFE_RELEASE)] ++
    List.replicate nBanks (Component.OcclusionQueryBank, Operation.SAFE_DELETE)
  else []) ++
  [(Component.AssetManager, Operation.OnInvalidateDeviceObjects)]

/-- An operation that gives a device resource back: invalidate, or the release or
deletion of a native handle. -/
def isReleaseOperation (op : Operation) : Bool :=
  op == Operation.InvalidateDeviceObjects || op == Operation.SAFE_RELEASE ||
    op == Operation.SAFE_DELETE

/-! ## `LoadParaX` and `LoadParaXByID` -/

/-- Modelled from the spec: the entity that the ParaX registry creates for a new key,
in `Unloaded` state (`ASSET_STATE_NORMAL`). -/
def freshParaX (sIdentifier key : Str) : ParaXEntity :=
  { identifier := sIdentifier
    key := key
    initialized := false
    state := AssetState.ASSET_STATE_NORMAL
    localFileName := []
    loaded := false }

/-- The function `CParaWorldAsset::LoadParaX`: the new state and the key of the
entity it returns. -/
def LoadParaX (fs : FileSystem) (w : CParaWorldAsset) (sIdentifier fileName : Str) :
    CParaWorldAsset × Str :=
  let sFileName := fs.ToCanonicalFilePath fileName
  let search :=
    if w.m_bUseAssetSearch then
      some (DoAssetSearch fs w.m_AssetMap sFileName
        (fs.GetCurDirectory AppDir.APP_CHARACTER_DIR))
    else none
  let sFileName :=
    match search with
    | some r => r.AssetFile
    | none => sFileName
  let m_AssetMap :=
    match search with
    | some r => r.m_AssetMap
    | none => w.m_AssetMap
  let res := w.ParaXManager.CreateEntity (freshParaX sIdentifier sFileName) sFileName
  let models :=
    if res.2 then res.1.modify sFileName (fun e => { e with initialized := true }) else res.1
  ({ w with m_AssetMap := m_AssetMap, ParaXManager := models }, sFileName)

/-- The table `models_` of `LoadParaXByID`. -/
def models_ : List Str :=
  ["character/particles/white_missile.x".toList,
   "character/particles/LevelUp.x".toList,
   "character/particles/summonNew.x".toList,
   "character/particles/ring.x".toList]

/-- The index `nAssetID % 4` of `LoadParaXByID`; the `%` of C++ truncates towards
zero, so the result has the sign of `nAssetID`. -/
def modelIndex (nAssetID : Int) : Int := Int.tmod nAssetID 4

/-- The read `models_[i]`: `none` when `i` is outside the table. -/
def readModel (i : Int) : Option Str :=
  if 0 ≤ i then models_.get? i.toNat else none

/-- The function `CParaWorldAsset::LoadParaXByID`: `none` when the table is read
outside its four entries, otherwise the outcome of `LoadParaX("", models_[i])`. -/
def LoadParaXByID (fs : FileSystem) (w : CParaWorldAsset) (nAssetID : Int) :
    Option (CParaWorldAsset × Str) :=
  match readModel (modelIndex nAssetID) with
  | some fileName => some (LoadParaX fs w [] fileName)
  | none => none

/-! ## The attribute models -/

/-- What `GetChildAttributeObject(int)` comes to: a registered attribute model, NULL,
or a read of `m_attribute_models` outside its elements. -/
inductive AttributeObject
  | model (c : Component)
  | NULL
  | outOfBounds
  deriving DecidableEq, Repr

/-- The function `CParaWorldAsset::GetChildAttributeObjectCount`. -/
def GetChildAttributeObjectCount (w : CParaWorldAsset) : Int :=
  (w.m_attribute_models.length : Int)

/-- The function `CParaWorldAsset::GetChildAttributeObject(int nRowIndex, int)`: the
only test is `nRowIndex < (int)m_attribute_models.size()`; the vector is then read at
`nRowIndex` converted to `size_t`, that is modulo `2^64`. -/
def GetChildAttributeObject (w : CParaWorldAsset) (nRowIndex : Int) : AttributeObject :=
  if nRowIndex < (w.m_attribute_models.length : Int) then
    match w.m_attribute_models.get? (nRowIndex % 2 ^ 64).toNat with
    | some c => AttributeObject.model c
    | none => AttributeObject.outOfBounds
  else AttributeObject.NULL


/-! ## Example states -/

/-- An asset manager whose mesh registry holds `models/a.x`, failed to load and not
loaded, and whose texture registry holds `textures/a.dds`, failed to load. -/
def failedAssets : CParaWorldAsset :=
  construct (sourceConfig true false false) none
    ⟨[("textures/a.dds".toList,
        { freshTexture [] "textures/a.dds".toList with
          state := AssetState.ASSET_STATE_FAILED_TO_LOAD
          localFileName := "temp/a.dds".toList })]⟩
    ⟨[("models/a.x".toList,
        { freshMesh [] "models/a.x".toList with
          state := AssetState.ASSET_STATE_FAILED_TO_LOAD
          localFileName := "temp/a.x".toList })]⟩


end ParaEngine
namespace ParaEngine

/-! ## Lemmas: string order and the remap table -/

theorem strLt_irrefl (a : Str) : strLt a a = false := by
  induction a with
  | nil => rfl
  | cons c t ih => simp [strLt, ih]

theorem strLt_trans : ∀ (a b c : Str), strLt a b = true → strLt b c = true → strLt a c = true
  | [], [], _, h, _ => by simp [strLt] at h
  | [], _ :: _, [], _, h => by simp [strLt] at h
  | [], _ :: _, _ :: _, _, _ => by simp [strLt]
  | _ :: _, [], _, h, _ => by simp [strLt] at h
  | _ :: _, _ :: _, [], _, h => by simp [strLt] at h
  | x :: a, y :: b, z :: c, h₁, h₂ => by
    simp only [strLt] at h₁ h₂ ⊢
    by_cases hxy : x < y
    · by_cases hyz : y < z
      · simp [lt_trans hxy hyz]
      · by_cases e : y = z
        · subst e; simp [hxy]
        · simp [hyz, e] at h₂
    · by_cases e₁ : x = y
      · subst e₁
        simp only [lt_irrefl, if_false, if_true] at h₁
        by_cases hyz : x < z
        · simp [hyz]
        · by_cases e : x = z
          · subst e
            simp only [lt_irrefl, if_false, if_true] at h₂ ⊢
            exact strLt_trans a b c h₁ h₂
          · simp [hyz, e] at h₂
      · simp [hxy, e₁] at h₁

theorem strLt_total : ∀ (a b : Str), strLt a b = false → a ≠ b → strLt b a = true
  | [], [], _, h => absurd rfl h
  | [], _ :: _, h, _ => by simp [strLt] at h
  | _ :: _, [], _, _ => by simp [strLt]
  | x :: a, y :: b, h, hne => by
    simp only [strLt] at h ⊢
    by_cases hxy : x < y
    · simp [hxy] at h
    · by_cases e : x = y
      · subst e
        simp only [lt_irrefl, if_false, if_true] at h ⊢
        exact strLt_total a b h (fun hab => hne (by rw [hab]))
      · have : y < x := lt_of_le_of_ne (not_lt.mp hxy) (Ne.symm e)
        simp [this]

theorem strLt_ne {a b : Str} (h : strLt a b = true) : a ≠ b := by
  intro e
  subst e
  rw [strLt_irrefl] at h
  exact Bool.noConfusion h

theorem strLt_asymm {a b : Str} (h : strLt a b = true) : strLt b a = false := by
  cases hb : strLt b a with
  | false => rfl
  | true =>
    have := strLt_trans a b a h hb
    rw [strLt_irrefl] at this
    exact Bool.noConfusion this

namespace AssetMap

theorem find_set (m : AssetMap) (k v x : Str) :
    find (set m k v) x = if k = x then some v else find m x := by
  induction m with
  | nil => simp [set, find]
  | cons e t ih =>
    obtain ⟨k', v'⟩ := e
    simp only [set]
    by_cases h₁ : strLt k k' = true
    · simp [h₁, find]
    · by_cases h₂ : k = k'
      · subst h₂
        simp only [h₁, if_false, if_true, find]
        by_cases h₃ : k = x <;> simp [h₃]
      · simp only [h₁, h₂, if_false, find, ih]
        by_cases h₃ : k' = x
        · have : k ≠ x := fun e => h₂ (by rw [e, h₃])
          simp [h₃, this]
        · simp [h₃]

theorem length_set_le (m : AssetMap) (k v : Str) :
    (set m k v).length ≤ m.length + 1 := by
  induction m with
  | nil => simp [set]
  | cons e t ih =>
    obtain ⟨k', v'⟩ := e
    simp only [set]
    split
    · simp
    · split
      · simp
      · simp only [List.length_cons]; omega

theorem length_set_of_find_none (m : AssetMap) (k v : Str) (h : find m k = none) :
    (set m k v).length = m.length + 1 := by
  induction m with
  | nil => simp [set]
  | cons e t ih =>
    obtain ⟨k', v'⟩ := e
    simp only [find] at h
    by_cases h₂ : k' = k
    · simp [h₂] at h
    · simp only [h₂, if_false] at h
      have h₃ : ¬ k = k' := fun e => h₂ e.symm
      simp only [set]
      split
      · simp
      · simp [h₃, ih h]

theorem Sorted.tail {e : Str × Str} {t : AssetMap} (h : Sorted (e :: t)) : Sorted t := by
  cases t with
  | nil => trivial
  | cons e' t' => exact h.2

theorem Sorted.head_lt {e : Str × Str} {t : AssetMap} (h : Sorted (e :: t)) :
    ∀ p ∈ t, strLt e.1 p.1 = true := by
  induction t generalizing e with
  | nil => intro p hp; cases hp
  | cons e' t' ih =>
    intro p hp
    have h₁ : strLt e.1 e'.1 = true := h.1
    rcases List.mem_cons.mp hp with rfl | hp'
    · exact h₁
    · exact strLt_trans _ _ _ h₁ (ih h.2 p hp')

theorem sorted_cons {e : Str × Str} {t : AssetMap} (ht : Sorted t)
    (hlt : ∀ p ∈ t, strLt e.1 p.1 = true) : Sorted (e :: t) := by
  cases t with
  | nil => trivial
  | cons e' t' => exact ⟨hlt e' (List.mem_cons_self _ _), ht⟩

theorem mem_set {m : AssetMap} {k v : Str} {p : Str × Str} (hp : p ∈ set m k v) :
    p = (k, v) ∨ p ∈ m := by
  induction m with
  | nil => simp [set] at hp; exact Or.inl hp
  | cons e t ih =>
    obtain ⟨k', v'⟩ := e
    simp only [set] at hp
    split at hp
    · rcases List.mem_cons.mp hp with h | h
      · exact Or.inl h
      · exact Or.inr h
    · split at hp
      · rcases List.mem_cons.mp hp with h | h
        · exact Or.inl h
        · exact Or.inr (List.mem_cons_of_mem _ h)
      · rcases List.mem_cons.mp hp with h | h
        · exact Or.inr (h ▸ List.mem_cons_self _ _)
        · rcases ih h with h' | h'
          · exact Or.inl h'
          · exact Or.inr (List.mem_cons_of_mem _ h')

theorem sorted_set {m : AssetMap} (h : Sorted m) (k v : Str) : Sorted (set m k v) := by
  induction m with
  | nil => trivial
  | cons e t ih =>
    obtain ⟨k', v'⟩ := e
    simp only [set]
    by_cases h₁ : strLt k k' = true
    · simp only [h₁, if_true]
      exact ⟨h₁, h⟩
    · by_cases h₂ : k = k'
      · subst h₂
        simp only [h₁, if_false, if_true]
        exact sorted_cons h.tail (fun p hp => h.head_lt p hp)
      · simp only [h₁, h₂, if_false]
        refine sorted_cons (ih h.tail) ?_
        intro p hp
        rcases mem_set hp with rfl | hp'
        · exact strLt_total k k' (by simpa using h₁) h₂
        · exact h.head_lt p hp'

theorem find_eq_none_of_lt {m : AssetMap} {x : Str}
    (h : ∀ p ∈ m, strLt x p.1 = true) : find m x = none := by
  induction m with
  | nil => rfl
  | cons e t ih =>
    obtain ⟨k', v'⟩ := e
    have h₁ : strLt x k' = true := h (k', v') (List.mem_cons_self _ _)
    have h₂ : ¬ k' = x := fun e => strLt_ne h₁ e.symm
    simp only [find, h₂, if_false]
    exact ih (fun p hp => h p (List.mem_cons_of_mem _ hp))

theorem find_of_mem {m : AssetMap} (h : Sorted m) {k v : Str} (hm : (k, v) ∈ m) :
    find m k = some v := by
  induction m with
  | nil => cases hm
  | cons e t ih =>
    obtain ⟨k', v'⟩ := e
    rcases List.mem_cons.mp hm with heq | hm'
    · cases heq
      simp [find]
    · have h₁ : strLt k' k = true := h.head_lt (k, v) hm'
      have h₂ : ¬ k' = k := strLt_ne h₁
      simp only [find, h₂, if_false]
      exact ih h.tail hm'

theorem mem_of_find {m : AssetMap} {k v : Str} (h : find m k = some v) : (k, v) ∈ m := by
  induction m with
  | nil => simp [find] at h
  | cons e t ih =>
    obtain ⟨k', v'⟩ := e
    simp only [find] at h
    by_cases h₂ : k' = k
    · simp only [h₂, if_true, Option.some.injEq] at h
      rw [h₂, h]
      exact List.mem_cons_self _ _
    · simp only [h₂, if_false] at h
      exact List.mem_cons_of_mem _ (ih h)

/-- Two tables in key order with the same lookups are the same table. -/
theorem ext_find : ∀ {a b : AssetMap}, Sorted a → Sorted b →
    (∀ x, find a x = find b x) → a = b
  | [], [], _, _, _ => rfl
  | [], (k, v) :: _, _, _, h => by
    have := h k
    simp [find] at this
  | (k, v) :: _, [], _, _, h => by
    have := h k
    simp [find] at this
  | (k₁, v₁) :: a, (k₂, v₂) :: b, ha, hb, h => by
    have hk : k₁ = k₂ := by
      by_contra hne
      have e₁ := h k₁
      have e₂ := h k₂
      simp only [find, if_true] at e₁ e₂
      have hne' : ¬ k₂ = k₁ := fun e => hne e.symm
      simp only [hne', hne, if_false] at e₁ e₂
      have m₁ : (k₁, v₁) ∈ b := mem_of_find e₁.symm
      have m₂ : (k₂, v₂) ∈ a := mem_of_find e₂
      have l₁ := hb.head_lt _ m₁
      have l₂ := ha.head_lt _ m₂
      have := strLt_asymm l₁
      simp only at l₂ this
      rw [l₂] at this
      exact Bool.noConfusion this
    subst hk
    have hv : v₁ = v₂ := by
      have := h k₁
      simpa [find] using this
    subst hv
    have : a = b := by
      apply ext_find ha.tail hb.tail
      intro x
      by_cases hx : k₁ = x
      · subst hx
        rw [find_eq_none_of_lt (ha.head_lt), find_eq_none_of_lt (hb.head_lt)]
      · have := h x
        simpa [find, hx] using this
    rw [this]

end AssetMap

end ParaEngine

namespace ParaEngine

/-! ## Lemmas: the line loader -/

theorem charAt_append_left (k : Str) (c : Char) (v : Str) (i : Nat) (h : i < k.length) :
    charAt (k ++ c :: v) i = charAt k i := by
  unfold charAt
  rw [List.getD_append _ _ _ _ h]

theorem charAt_append_mid (k : Str) (c : Char) (v : Str) :
    charAt (k ++ c :: v) k.length = c := by
  unfold charAt
  rw [List.getD_append_right _ _ _ _ (le_refl _)]
  simp

theorem charAt_append_right (k : Str) (c : Char) (v : Str) (i : Nat) (h : k.length < i) :
    charAt (k ++ c :: v) i = charAt v (i - k.length - 1) := by
  unfold charAt
  rw [List.getD_append_right _ _ _ _ (le_of_lt h)]
  obtain ⟨d, hd⟩ : ∃ d, i - k.length = d + 1 := ⟨i - k.length - 1, by omega⟩
  rw [hd]
  simp

theorem charAt_mem_or (s : Str) (i : Nat) : charAt s i ∈ s ∨ charAt s i = '\x00' := by
  unfold charAt
  by_cases h : i < s.length
  · left
    rw [List.getD_eq_getElem _ _ h]
    exact List.getElem_mem h
  · right
    rw [List.getD_eq_default _ _ (not_lt.mp h)]

theorem charAt_mem (s : Str) (i : Nat) (h : i < s.length) : charAt s i ∈ s := by
  unfold charAt
  rw [List.getD_eq_getElem _ _ h]
  exact List.getElem_mem h

theorem c_str_eq_self (s : Str) (h : ∀ c ∈ s, c ≠ '\x00') : c_str s = s := by
  unfold c_str
  rw [List.takeWhile_eq_self_iff]
  intro c hc
  simpa using h c hc

theorem c_str_append_nul (k v : Str) (h : ∀ c ∈ k, c ≠ '\x00') :
    c_str (k ++ '\x00' :: v) = k := by
  unfold c_str
  induction k with
  | nil => simp [List.takeWhile]
  | cons c t ih =>
    have hc : c ≠ '\x00' := h c (List.mem_cons_self _ _)
    simp only [List.cons_append, List.takeWhile_cons, bne_iff_ne, ne_eq, hc, not_false_eq_true,
      if_true]
    rw [ih (fun c hc => h c (List.mem_cons_of_mem _ hc))]

theorem set_append_mid (k : Str) (c d : Char) (v : Str) :
    (k ++ c :: v).set k.length d = k ++ d :: v := by
  induction k with
  | nil => rfl
  | cons a t ih => simp [ih]

theorem drop_append_mid (k : Str) (c : Char) (v : Str) :
    (k ++ c :: v).drop (k.length + 1) = v := by
  induction k with
  | nil => rfl
  | cons a t ih => simp

/-- Scanning a part of the buffer that has no `=` leaves the table as it is. -/
theorem loaderLoop_no_eq (fuel : Nat) (buf : Str) (i : Nat) (m : AssetMap)
    (h : ∀ j, i ≤ j → charAt buf j ≠ '=') : loaderLoop fuel buf i m = m := by
  induction fuel generalizing i with
  | zero => rfl
  | succ n ih =>
    simp only [loaderLoop]
    split
    · rfl
    · rw [if_neg (h i (le_refl _))]
      exact ih (i + 1) (fun j hj => h j (by omega))

/-- On the buffer `key=value` the loop makes the single assignment
`m_AssetMap[key] = value`. -/
theorem loaderLoop_entry (k v : Str) (hk : ∀ c ∈ k, c ≠ '=' ∧ c ≠ '\x00')
    (hv : ∀ c ∈ v, c ≠ '=' ∧ c ≠ '\x00') (m : AssetMap) (fuel i : Nat)
    (hi : i ≤ k.length) (hf : k.length - i < fuel) :
    loaderLoop fuel (k ++ '=' :: v) i m = m.set k v := by
  induction fuel generalizing i with
  | zero => omega
  | succ n ih =>
    simp only [loaderLoop]
    rcases Nat.lt_or_eq_of_le hi with hlt | heq
    · have hc := hk _ (charAt_mem k i hlt)
      rw [charAt_append_left k '=' v i hlt, if_neg hc.2, if_neg hc.1]
      exact ih (i + 1) hlt (by omega)
    · subst heq
      rw [charAt_append_mid]
      simp only [show ¬ ('=' = '\x00') by decide, if_false, if_true]
      rw [set_append_mid, drop_append_mid, c_str_append_nul k v (fun c hc => (hk c hc).2),
        c_str_eq_self v (fun c hc => (hv c hc).2)]
      apply loaderLoop_no_eq
      intro j hj
      rw [charAt_append_right k _ v j (by omega)]
      rcases charAt_mem_or v (j - k.length - 1) with h | h
      · exact (hv _ h).1
      · rw [h]; decide

theorem loadLine_entry (m : AssetMap) (k v : Str) (hk : ∀ c ∈ k, c ≠ '=' ∧ c ≠ '\x00')
    (hv : ∀ c ∈ v, c ≠ '=' ∧ c ≠ '\x00') : loadLine m (k ++ '=' :: v) = m.set k v :=
  loaderLoop_entry k v hk hv m _ 0 (Nat.zero_le _) (by simp; omega)

theorem loadLine_no_eq (m : AssetMap) (buf : Str) (h : ∀ c ∈ buf, c ≠ '=') :
    loadLine m buf = m := by
  apply loaderLoop_no_eq
  intro j _
  rcases charAt_mem_or buf j with h' | h'
  · exact h _ h'
  · rw [h']; decide

theorem loadLine_header (m : AssetMap) : loadLine m assetMapHeader = m :=
  loadLine_no_eq m assetMapHeader (by decide)

theorem readLine_line (line rest : Str) (n : Nat) (hb : ∀ c ∈ line, isLineBreak c = false)
    (hn : line.length < n) : readLine n (line ++ '\n' :: rest) = (line, rest) := by
  induction line generalizing n with
  | nil =>
    obtain ⟨n', rfl⟩ : ∃ n', n = n' + 1 := ⟨n - 1, by simp at hn; omega⟩
    simp [readLine, isLineBreak]
  | cons c t ih =>
    obtain ⟨n', rfl⟩ : ∃ n', n = n' + 1 := ⟨n - 1, by simp at hn; omega⟩
    have hc : isLineBreak c = false := hb c (List.mem_cons_self _ _)
    simp only [List.cons_append, readLine, hc, Bool.false_eq_true, if_false, List.append_eq]
    rw [ih n' (fun c hc => hb c (List.mem_cons_of_mem _ hc)) (by simp at hn; omega)]

theorem GetNextLine_line (line rest : Str) (h : GoodLine line) :
    GetNextLine (line ++ '\n' :: rest) 2048 = (line, rest) := by
  obtain ⟨hne, hb, hl⟩ := h
  unfold GetNextLine
  cases line with
  | nil => exact absurd rfl hne
  | cons c t =>
    have hc : isLineBreak c = false := hb c (List.mem_cons_self _ _)
    have : List.dropWhile isLineBreak ((c :: t) ++ '\n' :: rest) = (c :: t) ++ '\n' :: rest := by
      simp [List.dropWhile, hc]
    rw [this]
    exact readLine_line (c :: t) rest 2048 hb hl

theorem length_joinLines (ls : List Str) : ls.length ≤ (joinLines ls).length := by
  induction ls with
  | nil => simp
  | cons l t ih => simp only [joinLines, List.length_append, List.length_cons]; omega

theorem loadLines_joinLines (ls : List Str) (h : ∀ l ∈ ls, GoodLine l) (fuel : Nat)
    (hf : ls.length < fuel) (m : AssetMap) :
    loadLines fuel (joinLines ls) m = ls.foldl loadLine m := by
  induction ls generalizing fuel m with
  | nil =>
    obtain ⟨n, rfl⟩ : ∃ n, fuel = n + 1 := ⟨fuel - 1, by simp at hf; omega⟩
    simp [loadLines, joinLines, GetNextLine, readLine]
  | cons l t ih =>
    obtain ⟨n, rfl⟩ : ∃ n, fuel = n + 1 := ⟨fuel - 1, by simp at hf; omega⟩
    have hl : GoodLine l := h l (List.mem_cons_self _ _)
    have hpos : 0 < l.length := List.length_pos.mpr hl.1
    simp only [loadLines, joinLines, GetNextLine_line l _ hl, hpos, if_true, List.foldl_cons]
    exact ih (fun l' hl' => h l' (List.mem_cons_of_mem _ hl')) n (by simp at hf; omega) _

theorem loadAssetMapText_joinLines (ls : List Str) (h : ∀ l ∈ ls, GoodLine l) :
    loadAssetMapText (joinLines ls) = ls.foldl loadLine [] :=
  loadLines_joinLines ls h _ (Nat.lt_succ_of_le (length_joinLines ls)) []

end ParaEngine

namespace ParaEngine

/-! ## Lemmas: loading the lines of a saved table -/

theorem plainField_iff (s : Str) :
    plainField s = true ↔ ∀ c ∈ s, c ≠ '=' ∧ c ≠ '\n' ∧ c ≠ '\r' ∧ c ≠ '\x00' := by
  simp [plainField, List.all_eq_true, and_assoc]

theorem plainEntry_iff (e : Str × Str) :
    plainEntry e = true ↔
      plainField e.1 = true ∧ plainField e.2 = true ∧ e.1.length + e.2.length + 1 < 2048 := by
  simp [plainEntry, and_assoc]

theorem entryLine_plain (e : Str × Str) (h : plainEntry e = true) :
    entryLine e = e.1 ++ '=' :: e.2 := by
  obtain ⟨h₁, h₂, _⟩ := (plainEntry_iff e).mp h
  unfold entryLine
  rw [c_str_eq_self _ (fun c hc => ((plainField_iff _).mp h₁ c hc).2.2.2),
    c_str_eq_self _ (fun c hc => ((plainField_iff _).mp h₂ c hc).2.2.2)]

theorem append_eq_inj : ∀ (k k' v v' : Str), (∀ c ∈ k, c ≠ '=') → (∀ c ∈ k', c ≠ '=') →
    k ++ '=' :: v = k' ++ '=' :: v' → k = k' ∧ v = v'
  | [], [], _, _, _, _, h => by simpa using h
  | [], c :: t, _, _, _, hk', h => by
    simp only [List.nil_append, List.cons_append, List.cons.injEq] at h
    exact absurd h.1.symm (hk' c (List.mem_cons_self _ _))
  | c :: t, [], _, _, hk, _, h => by
    simp only [List.nil_append, List.cons_append, List.cons.injEq] at h
    exact absurd h.1 (hk c (List.mem_cons_self _ _))
  | c :: t, c' :: t', v, v', hk, hk', h => by
    simp only [List.cons_append, List.cons.injEq] at h
    obtain ⟨h₁, h₂⟩ := append_eq_inj t t' v v' (fun x hx => hk x (List.mem_cons_of_mem _ hx))
      (fun x hx => hk' x (List.mem_cons_of_mem _ hx)) h.2
    exact ⟨by rw [h.1, h₁], h₂⟩

theorem entryLine_inj (e e' : Str × Str) (h : plainEntry e = true) (h' : plainEntry e' = true)
    (heq : entryLine e = entryLine e') : e = e' := by
  rw [entryLine_plain e h, entryLine_plain e' h'] at heq
  obtain ⟨h₁, _, _⟩ := (plainEntry_iff e).mp h
  obtain ⟨h₁', _, _⟩ := (plainEntry_iff e').mp h'
  obtain ⟨a, b⟩ := append_eq_inj _ _ _ _ (fun c hc => ((plainField_iff _).mp h₁ c hc).1)
    (fun c hc => ((plainField_iff _).mp h₁' c hc).1) heq
  exact Prod.ext a b

theorem entryLine_ne_header (e : Str × Str) : entryLine e ≠ assetMapHeader := by
  intro h
  have h₁ : '=' ∈ entryLine e := by simp [entryLine]
  rw [h] at h₁
  revert h₁
  decide

theorem loadLine_entryLine (acc : AssetMap) (e : Str × Str) (h : plainEntry e = true) :
    loadLine acc (entryLine e) = acc.set e.1 e.2 := by
  rw [entryLine_plain e h]
  obtain ⟨h₁, h₂, _⟩ := (plainEntry_iff e).mp h
  exact loadLine_entry acc e.1 e.2
    (fun c hc => ⟨((plainField_iff _).mp h₁ c hc).1, ((plainField_iff _).mp h₁ c hc).2.2.2⟩)
    (fun c hc => ⟨((plainField_iff _).mp h₂ c hc).1, ((plainField_iff _).mp h₂ c hc).2.2.2⟩)

theorem goodLine_header : GoodLine assetMapHeader :=
  ⟨by decide, by decide, by decide⟩

theorem goodLine_entryLine (e : Str × Str) (h : plainEntry e = true) : GoodLine (entryLine e) := by
  rw [entryLine_plain e h]
  obtain ⟨h₁, h₂, h₃⟩ := (plainEntry_iff e).mp h
  refine ⟨by simp, ?_, by simp; omega⟩
  intro c hc
  have hc' : (c ≠ '\n' ∧ c ≠ '\r') := by
    rcases List.mem_append.mp hc with h | h
    · exact ⟨((plainField_iff _).mp h₁ c h).2.1, ((plainField_iff _).mp h₁ c h).2.2.1⟩
    · rcases List.mem_cons.mp h with h | h
      · subst h; decide
      · exact ⟨((plainField_iff _).mp h₂ c h).2.1, ((plainField_iff _).mp h₂ c h).2.2.1⟩
  simp [isLineBreak, hc'.1, hc'.2]

/-- Loading lines that are the header or entries of the table `m`, in any order and
with repetitions, keeps the loaded table inside `m` and makes it hold every entry
whose line was read. -/
theorem foldl_loadLine_inv (m : AssetMap) (hs : m.Sorted) (hp : ∀ e ∈ m, plainEntry e = true)
    (ls : List Str) (hl : ∀ l ∈ ls, l = assetMapHeader ∨ ∃ e ∈ m, l = entryLine e)
    (acc : AssetMap) (hacc : acc.Sorted)
    (hsub : ∀ x v, acc.find x = some v → m.find x = some v) :
    (ls.foldl loadLine acc).Sorted ∧
    (∀ x v, (ls.foldl loadLine acc).find x = some v → m.find x = some v) ∧
    (∀ e ∈ m, (entryLine e ∈ ls ∨ acc.find e.1 = some e.2) →
      (ls.foldl loadLine acc).find e.1 = some e.2) := by
  induction ls generalizing acc with
  | nil =>
    refine ⟨hacc, hsub, ?_⟩
    intro e _ h
    rcases h with h | h
    · cases h
    · exact h
  | cons l t ih =>
    have hl' : ∀ l ∈ t, l = assetMapHeader ∨ ∃ e ∈ m, l = entryLine e :=
      fun l' h' => hl l' (List.mem_cons_of_mem _ h')
    rcases hl l (List.mem_cons_self _ _) with rfl | ⟨e', he', rfl⟩
    · simp only [List.foldl_cons, loadLine_header]
      obtain ⟨a, b, c⟩ := ih hl' acc hacc hsub
      refine ⟨a, b, ?_⟩
      intro e he h
      apply c e he
      rcases h with h | h
      · rcases List.mem_cons.mp h with h | h
        · exact absurd h (entryLine_ne_header e)
        · exact Or.inl h
      · exact Or.inr h
    · simp only [List.foldl_cons, loadLine_entryLine acc e' (hp e' he')]
      have hsub' : ∀ x v, (acc.set e'.1 e'.2).find x = some v → m.find x = some v := by
        intro x v hx
        rw [AssetMap.find_set] at hx
        by_cases hk : e'.1 = x
        · simp only [hk, if_true, Option.some.injEq] at hx
          rw [← hk, ← hx]
          exact AssetMap.find_of_mem hs he'
        · simp only [hk, if_false] at hx
          exact hsub x v hx
      obtain ⟨a, b, c⟩ := ih hl' (acc.set e'.1 e'.2) (AssetMap.sorted_set hacc _ _) hsub'
      refine ⟨a, b, ?_⟩
      intro e he h
      apply c e he
      rcases h with h | h
      · rcases List.mem_cons.mp h with h | h
        · have : e = e' := entryLine_inj e e' (hp e he) (hp e' he') h
          subst this
          right
          rw [AssetMap.find_set]
          simp
        · exact Or.inl h
      · right
        rw [AssetMap.find_set]
        by_cases hk : e'.1 = e.1
        · simp only [hk, if_true, Option.some.injEq]
          have h₁ := AssetMap.find_of_mem hs he'
          have h₂ := AssetMap.find_of_mem hs he
          rw [hk, h₂] at h₁
          exact (Option.some.inj h₁).symm
        · simp only [hk, if_false]
          exact h

end ParaEngine

namespace ParaEngine

/-! ## C1: the remap file round trip -/

/-- C1 (as amended): for every remap table whose keys and values contain none of
`=`, line feed, carriage return and NUL and whose lines are shorter than the 2048
character line buffer, the constructor's line loader applied to the header line and
the `key=value` lines that `SaveAssetFileMapping` writes, taken in any order,
yields that same table. -/
theorem assetMap_roundtrip (m : AssetMap) (hs : m.Sorted) (hp : ∀ e ∈ m, plainEntry e = true)
    (ls : List Str) (hperm : ls.Perm (assetMapHeader :: m.map entryLine)) :
    loadAssetMapText (joinLines ls) = m := by
  have hl : ∀ l ∈ ls, l = assetMapHeader ∨ ∃ e ∈ m, l = entryLine e := by
    intro l h
    rcases List.mem_cons.mp (hperm.mem_iff.mp h) with h | h
    · exact Or.inl h
    · obtain ⟨e, he, rfl⟩ := List.mem_map.mp h
      exact Or.inr ⟨e, he, rfl⟩
  have hg : ∀ l ∈ ls, GoodLine l := by
    intro l h
    rcases hl l h with rfl | ⟨e, he, rfl⟩
    · exact goodLine_header
    · exact goodLine_entryLine e (hp e he)
  rw [loadAssetMapText_joinLines ls hg]
  obtain ⟨a, b, c⟩ := foldl_loadLine_inv m hs hp ls hl [] trivial
    (fun x v h => by simp [AssetMap.find] at h)
  apply AssetMap.ext_find a hs
  intro x
  cases hx : AssetMap.find m x with
  | some v =>
    have hmem : (x, v) ∈ m := AssetMap.mem_of_find hx
    exact c (x, v) hmem (Or.inl (hperm.mem_iff.mpr
      (List.mem_cons_of_mem _ (List.mem_map.mpr ⟨(x, v), hmem, rfl⟩))))
  | none =>
    cases hr : AssetMap.find (ls.foldl loadLine []) x with
    | none => rfl
    | some v =>
      have := b x v hr
      rw [hx] at this
      exact Option.noConfusion this

/-- C1, witness: a table of two entries, its lines read back in reverse order with
the header last. -/
theorem assetMap_roundtrip_witness :
    loadAssetMapText (joinLines ["models/tree.x=models/tree_a_v.x".toList,
      "a.x=b.x".toList, assetMapHeader]) =
      [("a.x".toList, "b.x".toList), ("models/tree.x".toList, "models/tree_a_v.x".toList)] :=
  assetMap_roundtrip
    [("a.x".toList, "b.x".toList), ("models/tree.x".toList, "models/tree_a_v.x".toList)]
    (by decide) (by decide)
    ["models/tree.x=models/tree_a_v.x".toList, "a.x=b.x".toList, assetMapHeader]
    (by decide)

/-- C1 (as stated) fails: the table with the single entry `a=b -> c` is written as
the line `a=b=c`, which the loader reads back as the entry `a -> c`. -/
theorem assetMap_roundtrip_counterexample :
    AssetMap.Sorted [("a=b".toList, "c".toList)] ∧
    loadAssetMapText (assetMapText [("a=b".toList, "c".toList)]) = [("a".toList, "c".toList)] ∧
    loadAssetMapText (assetMapText [("a=b".toList, "c".toList)]) ≠ [("a=b".toList, "c".toList)] := by
  decide

end ParaEngine

namespace ParaEngine

/-! ## Lemmas: `DoAssetSearch` -/

/-- A path that is on disk is returned as it is. -/
theorem DoAssetSearch_exists (fs : FileSystem) (m : AssetMap) (p dir : Str)
    (h : fs.DoesFileExist p = true) : DoAssetSearch fs m p dir = ⟨true, p, m, []⟩ := by
  simp [DoAssetSearch, h]

theorem DoAssetSearch_mapped (fs : FileSystem) (m : AssetMap) (p dir q : Str)
    (h : fs.DoesFileExist p = false) (hq : m.find p = some q) :
    DoAssetSearch fs m p dir = ⟨true, q, m, []⟩ := by
  simp [DoAssetSearch, h, hq]

theorem noResult_eq_false {r : Option CSearchResult} (h : noResult r = false) :
    ∃ root item0 rest, r = some ⟨root, item0 :: rest⟩ := by
  cases r with
  | none => simp [noResult] at h
  | some s =>
    obtain ⟨root, items⟩ := s
    cases items with
    | nil => simp [noResult] at h
    | cons a t => exact ⟨root, a, t, rfl⟩

theorem DoAssetSearch_hit (fs : FileSystem) (m : AssetMap) (p dir : Str)
    (h : fs.DoesFileExist p = false) (hq : m.find p = none)
    (hr : noResult (if noResult (fs.SearchFiles dir (GetFileName p)) = true
      then fs.SearchFiles dir (fuzzyPattern p) else fs.SearchFiles dir (GetFileName p)) = false) :
    (DoAssetSearch fs m p dir).ret = true ∧
    (DoAssetSearch fs m p dir).m_AssetMap = m.set p (DoAssetSearch fs m p dir).AssetFile := by
  obtain ⟨root, item0, rest, he⟩ := noResult_eq_false hr
  simp only [DoAssetSearch, h, hq, he]
  simp

theorem DoAssetSearch_miss (fs : FileSystem) (m : AssetMap) (p dir : Str)
    (h : fs.DoesFileExist p = false) (hq : m.find p = none)
    (hr : noResult (if noResult (fs.SearchFiles dir (GetFileName p)) = true
      then fs.SearchFiles dir (fuzzyPattern p) else fs.SearchFiles dir (GetFileName p)) = true) :
    (DoAssetSearch fs m p dir).ret = false ∧
    (DoAssetSearch fs m p dir).AssetFile = p ∧
    (DoAssetSearch fs m p dir).m_AssetMap = m := by
  simp only [DoAssetSearch, h, hq]
  generalize (if noResult (fs.SearchFiles dir (GetFileName p)) = true
      then fs.SearchFiles dir (fuzzyPattern p) else fs.SearchFiles dir (GetFileName p)) = r at hr ⊢
  cases r with
  | none => simp
  | some s =>
    obtain ⟨root, items⟩ := s
    cases items with
    | nil => simp
    | cons a t => simp [noResult] at hr

theorem noResult_ite (a b : Option CSearchResult) :
    noResult (if noResult a = true then b else a) = false ↔
      (noResult a = false ∨ noResult b = false) := by
  cases ha : noResult a <;> simp [ha]

end ParaEngine

namespace ParaEngine

/-! ## C2 to C5: `DoAssetSearch` -/

/-- C2: a call of `DoAssetSearch` keeps every entry of the remap table with its
value, changes no key other than the requested path `p` and adds at most one entry;
the entry `p -> AssetFile` is added when `p` is not on disk, has no entry and the
exact or the fuzzy disk search has a result, and otherwise the table is unchanged. -/
theorem DoAssetSearch_append_only (fs : FileSystem) (m : AssetMap) (p dir : Str) :
    (∀ k v, m.find k = some v → (DoAssetSearch fs m p dir).m_AssetMap.find k = some v) ∧
    (∀ k, k ≠ p → (DoAssetSearch fs m p dir).m_AssetMap.find k = m.find k) ∧
    (DoAssetSearch fs m p dir).m_AssetMap.length ≤ m.length + 1 ∧
    ((fs.DoesFileExist p = false ∧ m.find p = none ∧
        (noResult (fs.SearchFiles dir (GetFileName p)) = false ∨
          noResult (fs.SearchFiles dir (fuzzyPattern p)) = false)) →
      (DoAssetSearch fs m p dir).m_AssetMap = m.set p (DoAssetSearch fs m p dir).AssetFile ∧
      (DoAssetSearch fs m p dir).m_AssetMap.find p = some (DoAssetSearch fs m p dir).AssetFile ∧
      (DoAssetSearch fs m p dir).m_AssetMap.length = m.length + 1) ∧
    (¬ (fs.DoesFileExist p = false ∧ m.find p = none ∧
        (noResult (fs.SearchFiles dir (GetFileName p)) = false ∨
          noResult (fs.SearchFiles dir (fuzzyPattern p)) = false)) →
      (DoAssetSearch fs m p dir).m_AssetMap = m) := by
  by_cases h : fs.DoesFileExist p = true
  · rw [DoAssetSearch_exists fs m p dir h]
    simp [h]
  · have h' : fs.DoesFileExist p = false := by simpa using h
    cases hq : m.find p with
    | some q =>
      rw [DoAssetSearch_mapped fs m p dir q h' hq]
      simp
    | none =>
      cases hr : noResult (if noResult (fs.SearchFiles dir (GetFileName p)) = true
          then fs.SearchFiles dir (fuzzyPattern p) else fs.SearchFiles dir (GetFileName p)) with
      | false =>
        obtain ⟨_, hm⟩ := DoAssetSearch_hit fs m p dir h' hq hr
        have hc := (noResult_ite _ _).mp hr
        refine ⟨?_, ?_, ?_, ?_, ?_⟩
        · intro k v hk
          rw [hm, AssetMap.find_set]
          by_cases e : p = k
          · rw [← e, hq] at hk
            exact Option.noConfusion hk
          · simpa [e] using hk
        · intro k hk
          rw [hm, AssetMap.find_set]
          simp [Ne.symm hk]
        · rw [hm]
          exact AssetMap.length_set_le _ _ _
        · intro _
          refine ⟨hm, ?_, ?_⟩
          · rw [hm, AssetMap.find_set]
            simp
          · rw [hm]
            exact AssetMap.length_set_of_find_none _ _ _ hq
        · intro hn
          exact absurd ⟨h', rfl, hc⟩ hn
      | true =>
        obtain ⟨_, _, hm⟩ := DoAssetSearch_miss fs m p dir h' hq hr
        have hc : ¬ (noResult (fs.SearchFiles dir (GetFileName p)) = false ∨
            noResult (fs.SearchFiles dir (fuzzyPattern p)) = false) := by
          intro hc
          have := (noResult_ite _ _).mpr hc
          rw [hr] at this
          exact Bool.noConfusion this
        rw [hm]
        refine ⟨fun _ _ hk => hk, fun _ _ => rfl, Nat.le_succ _, ?_, fun _ => rfl⟩
        intro hn
        exact absurd hn.2.2 hc

/-- C3: when the requested path `p` is not on disk and the remap table maps `p` to `q`,
`DoAssetSearch` returns true with `AssetFile = q`, leaves the table as it is and issues
no disk search; the outcome is the same for every file system and search directory in
which `p` is missing. -/
theorem DoAssetSearch_table_first (fs : FileSystem) (m : AssetMap) (p q dir : Str)
    (hmiss : fs.DoesFileExist p = false) (hmap : m.find p = some q) :
    DoAssetSearch fs m p dir = ⟨true, q, m, []⟩ ∧
    ∀ (fs' : FileSystem) (dir' : Str), fs'.DoesFileExist p = false →
      DoAssetSearch fs' m p dir' = DoAssetSearch fs m p dir := by
  refine ⟨DoAssetSearch_mapped fs m p dir q hmiss hmap, ?_⟩
  intro fs' dir' h'
  rw [DoAssetSearch_mapped fs m p dir q hmiss hmap, DoAssetSearch_mapped fs' m p dir' q h' hmap]

end ParaEngine

namespace ParaEngine

/-- C3, witness: `models/tree.x` is missing on the example disk and mapped to
`models/tree_b.x`; the mapping is returned although a disk search would find
`models/tree_a_v.x`. -/
theorem DoAssetSearch_table_first_witness :
    DoAssetSearch treeDisk [("models/tree.x".toList, "models/tree_b.x".toList)]
        "models/tree.x".toList "models/".toList =
      ⟨true, "models/tree_b.x".toList,
        [("models/tree.x".toList, "models/tree_b.x".toList)], []⟩ ∧
    ∀ (fs' : FileSystem) (dir' : Str), fs'.DoesFileExist "models/tree.x".toList = false →
      DoAssetSearch fs' [("models/tree.x".toList, "models/tree_b.x".toList)]
          "models/tree.x".toList dir' =
        DoAssetSearch treeDisk [("models/tree.x".toList, "models/tree_b.x".toList)]
          "models/tree.x".toList "models/".toList :=
  DoAssetSearch_table_first treeDisk [("models/tree.x".toList, "models/tree_b.x".toList)]
    "models/tree.x".toList "models/tree_b.x".toList "models/".toList (by decide) (by decide)

theorem take_find_first_of (s : Str) :
    (match find_first_of s "_.".toList with
      | some nPos => s.take nPos
      | none => s) = s.takeWhile (fun c => !(c == '_' || c == '.')) := by
  induction s with
  | nil => rfl
  | cons c t ih =>
    by_cases hc : c = '_' ∨ c = '.'
    · have : "_.".toList.contains c = true := by
        rcases hc with rfl | rfl <;> decide
      simp only [find_first_of, this, if_true, List.take_zero]
      rcases hc with rfl | rfl <;> simp [List.takeWhile]
    · have h₁ : "_.".toList.contains c = false := by
        simp only [not_or] at hc
        simp [hc.1, hc.2]
      have h₂ : (!(c == '_' || c == '.')) = true := by
        simp only [not_or] at hc
        simp [hc.1, hc.2]
      simp only [find_first_of, h₁, Bool.false_eq_true, if_false, List.takeWhile_cons, h₂, if_true]
      rw [← ih]
      cases find_first_of t "_.".toList <;> simp

/-- C4: `DoAssetSearch` issues no search when the requested path is on disk or has an
entry in the remap table; otherwise it issues the exact-name search, and after it the
fuzzy search exactly when the exact-name search returned no result. The fuzzy pattern
is the requested file's name up to its first `_` or `.`, then `*.` and the requested
file's extension: for `models/tree.x` and for `models/tree_a_v.x`, both missing, the
second search has the pattern `tree*.x`. -/
theorem DoAssetSearch_fuzzy_search (fs : FileSystem) (m : AssetMap) (p dir : Str) :
    (DoAssetSearch fs m p dir).searches =
      (if fs.DoesFileExist p = true ∨ (m.find p).isSome = true then []
      else if noResult (fs.SearchFiles dir (GetFileName p)) = true then
        [(dir, GetFileName p),
         (dir, (GetFileName p).takeWhile (fun c => !(c == '_' || c == '.')) ++ "*.".toList ++
            GetFileExtension p)]
      else [(dir, GetFileName p)]) ∧
    (DoAssetSearch emptyDisk [] "models/tree.x".toList "models/".toList).searches =
      [("models/".toList, "tree.x".toList), ("models/".toList, "tree*.x".toList)] ∧
    (DoAssetSearch emptyDisk [] "models/tree_a_v.x".toList "models/".toList).searches =
      [("models/".toList, "tree_a_v.x".toList), ("models/".toList, "tree*.x".toList)] ∧
    (DoAssetSearch treeDisk [] "models/tree.x".toList "models/".toList).searches =
      [("models/".toList, "tree.x".toList), ("models/".toList, "tree*.x".toList)] := by
  refine ⟨?_, by decide, by decide, by decide⟩
  have hpat : fuzzyPattern p =
      (GetFileName p).takeWhile (fun c => !(c == '_' || c == '.')) ++ "*.".toList ++
        GetFileExtension p := by
    simp only [fuzzyPattern]
    rw [take_find_first_of]
  by_cases h : fs.DoesFileExist p = true
  · rw [DoAssetSearch_exists fs m p dir h]
    simp [h]
  · have h' : fs.DoesFileExist p = false := by simpa using h
    cases hq : m.find p with
    | some q =>
      rw [DoAssetSearch_mapped fs m p dir q h' hq]
      simp
    | none =>
      cases hn : noResult (fs.SearchFiles dir (GetFileName p)) with
      | false =>
        simp only [DoAssetSearch, h', hq, hn, Bool.false_eq_true, if_false, false_or,
          Option.isSome_none]
        split <;> simp
      | true =>
        simp only [DoAssetSearch, h', hq, hn, Bool.false_eq_true, if_false, if_true, false_or,
          Option.isSome_none, ← hpat]
        split <;> simp

/-- C5: `DoAssetSearch` returns false exactly when the requested path is not on disk,
has no entry in the remap table, and neither the exact-name search nor the fuzzy
search has a result; when it returns false, `AssetFile` and the table are unchanged. -/
theorem DoAssetSearch_false_iff (fs : FileSystem) (m : AssetMap) (p dir : Str) :
    ((DoAssetSearch fs m p dir).ret = false ↔
      (fs.DoesFileExist p = false ∧ m.find p = none ∧
        noResult (fs.SearchFiles dir (GetFileName p)) = true ∧
        noResult (fs.SearchFiles dir (fuzzyPattern p)) = true)) ∧
    ((DoAssetSearch fs m p dir).ret = false →
      (DoAssetSearch fs m p dir).AssetFile = p ∧ (DoAssetSearch fs m p dir).m_AssetMap = m) := by
  by_cases h : fs.DoesFileExist p = true
  · rw [DoAssetSearch_exists fs m p dir h]
    simp [h]
  · have h' : fs.DoesFileExist p = false := by simpa using h
    cases hq : m.find p with
    | some q =>
      rw [DoAssetSearch_mapped fs m p dir q h' hq]
      simp
    | none =>
      cases hr : noResult (if noResult (fs.SearchFiles dir (GetFileName p)) = true
          then fs.SearchFiles dir (fuzzyPattern p) else fs.SearchFiles dir (GetFileName p)) with
      | false =>
        obtain ⟨ht, _⟩ := DoAssetSearch_hit fs m p dir h' hq hr
        have hc := (noResult_ite _ _).mp hr
        rw [ht]
        refine ⟨⟨fun hf => Bool.noConfusion hf, ?_⟩, fun hf => Bool.noConfusion hf⟩
        intro hn
        rcases hc with hc | hc
        · rw [hn.2.2.1] at hc; exact Bool.noConfusion hc
        · rw [hn.2.2.2] at hc; exact Bool.noConfusion hc
      | true =>
        obtain ⟨hf, ha, hm⟩ := DoAssetSearch_miss fs m p dir h' hq hr
        refine ⟨⟨fun _ => ⟨h', rfl, ?_, ?_⟩, fun _ => hf⟩, fun _ => ⟨ha, hm⟩⟩
        · cases hn : noResult (fs.SearchFiles dir (GetFileName p)) with
          | true => rfl
          | false =>
            have := (noResult_ite _ (fs.SearchFiles dir (fuzzyPattern p))).mpr (Or.inl hn)
            rw [hr] at this
            exact Bool.noConfusion this
        · cases hn : noResult (fs.SearchFiles dir (fuzzyPattern p)) with
          | true => rfl
          | false =>
            have := (noResult_ite (fs.SearchFiles dir (GetFileName p)) _).mpr (Or.inr hn)
            rw [hr] at this
            exact Bool.noConfusion this

end ParaEngine

namespace ParaEngine

/-! ## Lemmas: registries -/

namespace AssetManager

theorem lookup_append_new {E : Type} (items : List (Str × E)) (key : Str) (fresh : E)
    (h : lookup items key = none) : lookup (items ++ [(key, fresh)]) key = some fresh := by
  induction items with
  | nil => simp [lookup]
  | cons ke t ih =>
    obtain ⟨k, e⟩ := ke
    simp only [lookup] at h
    by_cases hk : k = key
    · simp [hk] at h
    · simp only [hk, if_false] at h
      simp only [List.cons_append, lookup, hk, if_false]
      exact ih h

theorem lookup_map_modify {E : Type} (items : List (Str × E)) (key k : Str) (f : E → E) :
    lookup (items.map (fun ke => (ke.1, if ke.1 = key then f ke.2 else ke.2))) k =
      (lookup items k).map (fun e => if k = key then f e else e) := by
  induction items with
  | nil => rfl
  | cons ke t ih =>
    obtain ⟨k', e⟩ := ke
    simp only [List.map_cons, lookup]
    by_cases h₂ : k' = k
    · subst h₂
      simp
    · simp only [h₂, if_false]
      exact ih

theorem get_modify {E : Type} (mgr : AssetManager E) (key k : Str) (f : E → E) :
    (mgr.modify key f).get k = (mgr.get k).map (fun e => if k = key then f e else e) :=
  lookup_map_modify mgr.m_items key k f

theorem CreateEntity_new {E : Type} (mgr : AssetManager E) (fresh : E) (key : Str)
    (h : mgr.get key = none) :
    (mgr.CreateEntity fresh key).2 = true ∧ (mgr.CreateEntity fresh key).1.get key = some fresh := by
  have : mgr.CreateEntity fresh key = (⟨mgr.m_items ++ [(key, fresh)]⟩, true) := by
    simp only [CreateEntity, h]
  rw [this]
  exact ⟨rfl, lookup_append_new mgr.m_items key fresh h⟩

theorem CreateEntity_old {E : Type} (mgr : AssetManager E) (fresh e : E) (key : Str)
    (h : mgr.get key = some e) : mgr.CreateEntity fresh key = (mgr, false) := by
  simp only [CreateEntity, h]

theorem CreateEntity_get_isSome {E : Type} (mgr : AssetManager E) (fresh : E) (key : Str) :
    ((mgr.CreateEntity fresh key).1.get key).isSome = true := by
  cases h : mgr.get key with
  | none => rw [(CreateEntity_new mgr fresh key h).2]; rfl
  | some e => rw [CreateEntity_old mgr fresh e key h, h]; rfl

end AssetManager

end ParaEngine

namespace ParaEngine

/-! ## C6: the sentinel file and `LoadMesh` -/

/-- C6 (as amended): in a build that defines `USE_ASSET_MAP`, when `temp/assetmap.txt`
is present at construction the asset manager enables asset search and loads the file's
mappings; `LoadMesh` for a path `p` that is missing on disk then runs `DoAssetSearch`
on `p`, returns the entity registered under the path that `DoAssetSearch` leaves in
`AssetFile`, and, when `DoAssetSearch` succeeds, the remap table maps `p` to that path. -/
theorem LoadMesh_asset_search (cfg : BuildConfig) (text : Str)
    (textures : AssetManager TextureEntity) (meshes : AssetManager MeshEntity)
    (fs : FileSystem) (sIdentifier fileName : Str)
    (hcfg : cfg.USE_ASSET_MAP = true)
    (hmiss : fs.DoesFileExist (fs.ToCanonicalFilePath fileName) = false) :
    (construct cfg (some text) textures meshes).m_bUseAssetSearch = true ∧
    (construct cfg (some text) textures meshes).m_AssetMap = loadAssetMapText text ∧
    (LoadMesh fs (construct cfg (some text) textures meshes) sIdentifier fileName).2 =
      (DoAssetSearch fs (loadAssetMapText text) (fs.ToCanonicalFilePath fileName)
        (fs.GetCurDirectory AppDir.APP_MODEL_DIR)).AssetFile ∧
    (((LoadMesh fs (construct cfg (some text) textures meshes) sIdentifier fileName).1.MeshManager.get
      (DoAssetSearch fs (loadAssetMapText text) (fs.ToCanonicalFilePath fileName)
        (fs.GetCurDirectory AppDir.APP_MODEL_DIR)).AssetFile).isSome = true) ∧
    (LoadMesh fs (construct cfg (some text) textures meshes) sIdentifier fileName).1.m_AssetMap =
      (DoAssetSearch fs (loadAssetMapText text) (fs.ToCanonicalFilePath fileName)
        (fs.GetCurDirectory AppDir.APP_MODEL_DIR)).m_AssetMap ∧
    ((DoAssetSearch fs (loadAssetMapText text) (fs.ToCanonicalFilePath fileName)
        (fs.GetCurDirectory AppDir.APP_MODEL_DIR)).ret = true →
      (LoadMesh fs (construct cfg (some text) textures meshes) sIdentifier
          fileName).1.m_AssetMap.find (fs.ToCanonicalFilePath fileName) =
        some (DoAssetSearch fs (loadAssetMapText text) (fs.ToCanonicalFilePath fileName)
          (fs.GetCurDirectory AppDir.APP_MODEL_DIR)).AssetFile) := by
  have hu : (construct cfg (some text) textures meshes).m_bUseAssetSearch = true := by
    simp [construct, hcfg, isEof]
  have hm : (construct cfg (some text) textures meshes).m_AssetMap = loadAssetMapText text := by
    simp [construct, hcfg, isEof]
  have hmesh : (construct cfg (some text) textures meshes).MeshManager = meshes := rfl
  refine ⟨hu, hm, ?_, ?_, ?_, ?_⟩
  · simp only [LoadMesh, hu, hm, if_true]
  · simp only [LoadMesh, hu, hm, if_true, hmesh]
    split
    · rw [AssetManager.get_modify, Option.isSome_map']
      exact AssetManager.CreateEntity_get_isSome _ _ _
    · exact AssetManager.CreateEntity_get_isSome _ _ _
  · simp only [LoadMesh, hu, hm, if_true]
  · intro hret
    simp only [LoadMesh, hu, hm, if_true]
    cases hq : (loadAssetMapText text).find (fs.ToCanonicalFilePath fileName) with
    | some q =>
      rw [DoAssetSearch_mapped fs _ _ _ q hmiss hq]
      exact hq
    | none =>
      cases hr : noResult (if noResult (fs.SearchFiles (fs.GetCurDirectory AppDir.APP_MODEL_DIR)
          (GetFileName (fs.ToCanonicalFilePath fileName))) = true
          then fs.SearchFiles (fs.GetCurDirectory AppDir.APP_MODEL_DIR)
            (fuzzyPattern (fs.ToCanonicalFilePath fileName))
          else fs.SearchFiles (fs.GetCurDirectory AppDir.APP_MODEL_DIR)
            (GetFileName (fs.ToCanonicalFilePath fileName))) with
      | false =>
        obtain ⟨_, hset⟩ := DoAssetSearch_hit fs _ _ _ hmiss hq hr
        rw [hset, AssetMap.find_set]
        simp
      | true =>
        obtain ⟨hf, _, _⟩ := DoAssetSearch_miss fs _ _ _ hmiss hq hr
        rw [hf] at hret
        exact Bool.noConfusion hret

/-- C6, witness: a build with `USE_ASSET_MAP`, a remap file holding only the header,
and the example disk on which `models/tree.x` is missing and `models/tree_a_v.x`
exists: the entry `models/tree.x=models/tree_a_v.x` is recorded. -/
theorem LoadMesh_asset_search_witness :
    (LoadMesh treeDisk (construct ⟨true, true, false, false⟩ (some (assetMapText [])) ⟨[]⟩ ⟨[]⟩)
        [] "models/tree.x".toList).1.m_AssetMap.find "models/tree.x".toList =
      some "models/tree_a_v.x".toList :=
  ((LoadMesh_asset_search ⟨true, true, false, false⟩ (assetMapText []) ⟨[]⟩ ⟨[]⟩
    treeDisk [] "models/tree.x".toList rfl (by decide)).2.2.2.2.2 (by decide)).trans (by decide)

/-- C6 (as stated) fails: the source file leaves `USE_ASSET_MAP` undefined, and then
a present `temp/assetmap.txt` does not enable asset search; `LoadMesh` of
`models/tree.x`, with only `models/tree_a_v.x` on disk, registers the entity under
`models/tree.x` and records nothing. -/
theorem LoadMesh_asset_search_counterexample :
    (construct (sourceConfig true false false) (some (assetMapText [])) ⟨[]⟩
      ⟨[]⟩).m_bUseAssetSearch = false ∧
    (LoadMesh treeDisk (construct (sourceConfig true false false) (some (assetMapText [])) ⟨[]⟩ ⟨[]⟩)
      [] "models/tree.x".toList).2 = "models/tree.x".toList ∧
    (LoadMesh treeDisk (construct (sourceConfig true false false) (some (assetMapText [])) ⟨[]⟩ ⟨[]⟩)
      [] "models/tree.x".toList).1.m_AssetMap = [] := by
  decide

end ParaEngine

namespace ParaEngine

/-! ## C7 to C9: call order -/

/-- C7 (as amended): in every build, the texture registry's `DeleteDeviceObjects` call
is the first call made by `DeleteDeviceObjects` and is made once; the release calls of
the font, ParaX, mesh and effect registries, and in DirectX builds of the HTML-browser,
voxel-terrain, sprite and CAD-model managers, all come after it. -/
theorem DeleteDeviceObjects_texture_first (cfg : BuildConfig) :
    (DeleteDeviceObjects cfg).head? =
      some (Component.TextureManager, Operation.DeleteDeviceObjects) ∧
    (Component.TextureManager, Operation.DeleteDeviceObjects) ∉ (DeleteDeviceObjects cfg).tail ∧
    (Component.FontManager, Operation.DeleteDeviceObjects) ∈ (DeleteDeviceObjects cfg).tail ∧
    (Component.ParaXManager, Operation.DeleteDeviceObjects) ∈ (DeleteDeviceObjects cfg).tail ∧
    (Component.MeshManager, Operation.DeleteDeviceObjects) ∈ (DeleteDeviceObjects cfg).tail ∧
    (Component.EffectsManager, Operation.DeleteDeviceObjects) ∈ (DeleteDeviceObjects cfg).tail ∧
    (cfg.USE_DIRECTX_RENDERER = true →
      (Component.HTMLBrowserManager, Operation.DeleteDeviceObjects) ∈
        (DeleteDeviceObjects cfg).tail ∧
      (Component.VoxelTerrainManager, Operation.DeleteDeviceObjects) ∈
        (DeleteDeviceObjects cfg).tail ∧
      (Component.D3DXSpriteManager, Operation.DeleteDeviceObjects) ∈
        (DeleteDeviceObjects cfg).tail ∧
      (Component.CadModelManager, Operation.DeleteDeviceObjects) ∈
        (DeleteDeviceObjects cfg).tail) := by
  obtain ⟨a, d, f, mo⟩ := cfg
  cases a <;> cases d <;> cases f <;> cases mo <;>
    refine ⟨?_, ?_, ?_, ?_, ?_, ?_, ?_⟩ <;> decide

/-- C7 (as stated) fails: in a DirectX build with the flash manager, the texture
registry's call is at position 0 and the font registry's call at position 1, so the
texture call is not after the font call. -/
theorem DeleteDeviceObjects_texture_counterexample :
    (DeleteDeviceObjects ⟨false, true, true, false⟩).indexOf
      (Component.TextureManager, Operation.DeleteDeviceObjects) = 0 ∧
    (DeleteDeviceObjects ⟨false, true, true, false⟩).indexOf
      (Component.FontManager, Operation.DeleteDeviceObjects) = 1 ∧
    ¬ ((DeleteDeviceObjects ⟨false, true, true, false⟩).indexOf
        (Component.FontManager, Operation.DeleteDeviceObjects) <
      (DeleteDeviceObjects ⟨false, true, true, false⟩).indexOf
        (Component.TextureManager, Operation.DeleteDeviceObjects)) := by
  decide

/-- C8 (as amended): in every build, the calls that `Cleanup` makes after the texture
registry's `Cleanup` are exactly those on the vertex-buffer pool manager, the character
database, the data-provider manager, the info-center database manager and the database
registry, then the `OnCleanup` signal; the `Cleanup` calls of the ParaX, mesh, ocean,
sequence, effect, font and buffer-picking managers, and in DirectX builds of the sprite,
HTML-browser, voxel-terrain and CAD-model managers, all come before it. -/
theorem Cleanup_texture_order (cfg : BuildConfig) :
    (Cleanup cfg).drop
        ((Cleanup cfg).indexOf (Component.TextureManager, Operation.Cleanup) + 1) =
      [(Component.VertexBufferPoolManager, Operation.Cleanup),
       (Component.CharacterDB, Operation.CloseDB),
       (Component.DataProviderManager, Operation.Cleanup),
       (Component.ICDBManager, Operation.Finalize),
       (Component.DatabaseManager, Operation.Cleanup),
       (Component.AssetManager, Operation.OnCleanup)] ∧
    (Component.TextureManager, Operation.Cleanup) ∈ Cleanup cfg ∧
    [(Component.ParaXManager, Operation.Cleanup),
     (Component.MeshManager, Operation.Cleanup),
     (Component.OceanManager, Operation.Cleanup),
     (Component.SequenceManager, Operation.Cleanup),
     (Component.EffectsManager, Operation.Cleanup),
     (Component.FontManager, Operation.Cleanup),
     (Component.BufferPickingManager, Operation.Cleanup)] ⊆
      (Cleanup cfg).take ((Cleanup cfg).indexOf (Component.TextureManager, Operation.Cleanup)) ∧
    (cfg.USE_DIRECTX_RENDERER = true →
      [(Component.D3DXSpriteManager, Operation.Cleanup),
       (Component.HTMLBrowserManager, Operation.Cleanup),
       (Component.VoxelTerrainManager, Operation.Cleanup),
       (Component.CadModelManager, Operation.Cleanup)] ⊆
        (Cleanup cfg).take
          ((Cleanup cfg).indexOf (Component.TextureManager, Operation.Cleanup))) := by
  obtain ⟨a, d, f, mo⟩ := cfg
  cases a <;> cases d <;> cases f <;> cases mo <;>
    refine ⟨?_, ?_, ?_, ?_⟩ <;> decide

/-- C8 (as stated) fails: the vertex-buffer pool manager and the database registry are
cleaned up after the texture registry. -/
theorem Cleanup_texture_counterexample :
    (Cleanup ⟨false, true, true, false⟩).indexOf (Component.TextureManager, Operation.Cleanup) <
      (Cleanup ⟨false, true, true, false⟩).indexOf
        (Component.VertexBufferPoolManager, Operation.Cleanup) ∧
    (Cleanup ⟨false, true, true, false⟩).indexOf (Component.TextureManager, Operation.Cleanup) <
      (Cleanup ⟨false, true, true, false⟩).indexOf
        (Component.DatabaseManager, Operation.Cleanup) ∧
    (Component.VertexBufferPoolManager, Operation.Cleanup) ∈ Cleanup ⟨false, true, true, false⟩ ∧
    (Component.DatabaseManager, Operation.Cleanup) ∈ Cleanup ⟨false, true, true, false⟩ := by
  decide

/-- C9: in every build, among the calls of the destructor the async loader's `Stop`
comes before every `Cleanup` call and every `Cleanup` call comes before
`SaveAssetFileMapping`; both `Stop` and `SaveAssetFileMapping` are called. -/
theorem destructor_order (cfg : BuildConfig) (call : Call) (hmem : call ∈ destructor cfg)
    (hop : call.2 = Operation.Cleanup) :
    (destructor cfg).indexOf (Component.AsyncLoader, Operation.Stop) <
      (destructor cfg).indexOf call ∧
    (destructor cfg).indexOf call <
      (destructor cfg).indexOf (Component.AssetManager, Operation.SaveAssetFileMapping) ∧
    (Component.AsyncLoader, Operation.Stop) ∈ destructor cfg ∧
    (Component.AssetManager, Operation.SaveAssetFileMapping) ∈ destructor cfg := by
  have key : ∀ c ∈ destructor cfg, c.2 = Operation.Cleanup →
      (destructor cfg).indexOf (Component.AsyncLoader, Operation.Stop) <
        (destructor cfg).indexOf c ∧
      (destructor cfg).indexOf c <
        (destructor cfg).indexOf (Component.AssetManager, Operation.SaveAssetFileMapping) ∧
      (Component.AsyncLoader, Operation.Stop) ∈ destructor cfg ∧
      (Component.AssetManager, Operation.SaveAssetFileMapping) ∈ destructor cfg := by
    obtain ⟨a, d, f, mo⟩ := cfg
    cases a <;> cases d <;> cases f <;> cases mo <;> decide
  exact key call hmem hop

/-- C9, witness: the texture registry's `Cleanup` in a DirectX build with the flash
manager. -/
theorem destructor_order_witness :
    (destructor ⟨false, true, true, false⟩).indexOf (Component.AsyncLoader, Operation.Stop) <
      (destructor ⟨false, true, true, false⟩).indexOf
        (Component.TextureManager, Operation.Cleanup) ∧
    (destructor ⟨false, true, true, false⟩).indexOf
        (Component.TextureManager, Operation.Cleanup) <
      (destructor ⟨false, true, true, false⟩).indexOf
        (Component.AssetManager, Operation.SaveAssetFileMapping) ∧
    (Component.AsyncLoader, Operation.Stop) ∈ destructor ⟨false, true, true, false⟩ ∧
    (Component.AssetManager, Operation.SaveAssetFileMapping) ∈
      destructor ⟨false, true, true, false⟩ :=
  destructor_order ⟨false, true, true, false⟩ (Component.TextureManager, Operation.Cleanup)
    (by decide) rfl

end ParaEngine

namespace ParaEngine

/-! ## C10: remote classification in `LoadTexture` -/

/-- The entity that `LoadTexture` registers for a new key outside the `<...>` syntax. -/
theorem LoadTexture_new_entity (fs : FileSystem) (w : CParaWorldAsset)
    (sIdentifier fileName : Str) (nSurfaceType : SurfaceType)
    (hlt : charAt fileName 0 ≠ '<')
    (hnew : w.TextureManager.get (fs.DecodePath (fs.ToCanonicalFilePath fileName)) = none) :
    (LoadTexture fs w sIdentifier fileName nSurfaceType).entity =
      some (fs.DecodePath (fs.ToCanonicalFilePath fileName)) ∧
    ∃ e, (LoadTexture fs w sIdentifier fileName nSurfaceType).world.TextureManager.get
        (fs.DecodePath (fs.ToCanonicalFilePath fileName)) = some e ∧
      e.SurfaceType = resolvedSurfaceType fileName nSurfaceType ∧
      e.state = (if isRemoteFile fileName then AssetState.ASSET_STATE_REMOTE
        else AssetState.ASSET_STATE_NORMAL) ∧
      e.asyncLoad = w.m_bAsyncLoading := by
  obtain ⟨h₁, h₂⟩ := AssetManager.CreateEntity_new w.TextureManager
    (freshTexture sIdentifier (fs.DecodePath (fs.ToCanonicalFilePath fileName)))
    (fs.DecodePath (fs.ToCanonicalFilePath fileName)) hnew
  simp only [LoadTexture, hlt, if_false, h₁, if_true]
  refine ⟨trivial, ?_⟩
  rw [AssetManager.get_modify, h₂]
  simp [freshTexture]

theorem startsWith_split : ∀ (pre s : Str), pre.isPrefixOf s = true → ∃ t, s = pre ++ t
  | [], s, _ => ⟨s, rfl⟩
  | _ :: _, [], h => by simp [List.isPrefixOf] at h
  | a :: pre, b :: s, h => by
    simp only [List.isPrefixOf, Bool.and_eq_true, beq_iff_eq] at h
    obtain ⟨t, ht⟩ := startsWith_split pre s h.2
    exact ⟨t, by rw [h.1, ht]; rfl⟩

theorem isRemoteFile_of_scheme (fileName : Str) (hlen : fileName.length > 9)
    (hpre : "http:".toList.isPrefixOf fileName = true ∨
      "https:".toList.isPrefixOf fileName = true ∨
      "ftp:".toList.isPrefixOf fileName = true) : isRemoteFile fileName = true := by
  rcases hpre with h | h | h
  · obtain ⟨t, rfl⟩ := startsWith_split _ _ h
    simp [isRemoteFile, charAt] at hlen ⊢
    omega
  · obtain ⟨t, rfl⟩ := startsWith_split _ _ h
    simp [isRemoteFile, charAt] at hlen ⊢
    omega
  · obtain ⟨t, rfl⟩ := startsWith_split _ _ h
    simp [isRemoteFile, charAt] at hlen ⊢
    omega

theorem scheme_of_isRemoteFile (fileName : Str) (h : isRemoteFile fileName = true) :
    fileName.length > 9 ∧
    ("http:".toList.isPrefixOf fileName = true ∨ "ftp:".toList.isPrefixOf fileName = true ∨
      ("http".toList.isPrefixOf fileName = true ∧ charAt fileName 5 = ':')) := by
  simp only [isRemoteFile, Bool.and_eq_true, decide_eq_true_eq, Bool.or_eq_true,
    beq_iff_eq] at h
  obtain ⟨hlen, h⟩ := h
  refine ⟨hlen, ?_⟩
  match fileName, hlen with
  | a :: b :: c :: d :: t, _ =>
    simp only [charAt, List.getD_cons_zero, List.getD_cons_succ] at h
    rcases h with ⟨⟨⟨⟨rfl, rfl⟩, rfl⟩, rfl⟩, h₄ | h₅⟩ | ⟨⟨⟨rfl, rfl⟩, rfl⟩, rfl⟩
    · left
      cases t with
      | nil => simp at h₄
      | cons e t' =>
        simp only [List.getD_cons_zero] at h₄
        subst h₄
        simp [List.isPrefixOf]
    · right; right
      refine ⟨by simp [List.isPrefixOf], ?_⟩
      simpa [charAt] using h₅
    · right; left
      simp [List.isPrefixOf]

/-- The classification at names around the scheme test: a local path that begins with
`http` is not remote, `https:` is remote, `http` with one other character and `:` is
remote as well, and a name of 9 characters is never remote. -/
theorem isRemoteFile_examples :
    isRemoteFile "httpfoo/bar.png".toList = false ∧
    isRemoteFile "https://a.b/c.png".toList = true ∧
    isRemoteFile "httpx:abcdef.png".toList = true ∧
    isRemoteFile "ftp://a.b".toList = false := by
  decide

/-- C10 (as amended): for every file name not starting with `<`, a texture entity newly
created by `LoadTexture` with requested kind `StaticTexture` is put in state Remote
when the name has more than 9 characters, begins with `http:`, `https:` or `ftp:` and
the resulting surface type is `StaticTexture`, and is not put in state Remote when the
name has at most 9 characters, or when it begins neither with `http:` nor with `ftp:`
nor with `http`, one more character and `:`. -/
theorem LoadTexture_remote_state (fs : FileSystem) (w : CParaWorldAsset)
    (sIdentifier fileName : Str)
    (hlt : charAt fileName 0 ≠ '<')
    (hnew : w.TextureManager.get (fs.DecodePath (fs.ToCanonicalFilePath fileName)) = none) :
    ∃ e, (LoadTexture fs w sIdentifier fileName SurfaceType.StaticTexture).world.TextureManager.get
        (fs.DecodePath (fs.ToCanonicalFilePath fileName)) = some e ∧
      e.SurfaceType = resolvedSurfaceType fileName SurfaceType.StaticTexture ∧
      ((fileName.length > 9 ∧
          ("http:".toList.isPrefixOf fileName = true ∨
            "https:".toList.isPrefixOf fileName = true ∨
            "ftp:".toList.isPrefixOf fileName = true) ∧
          e.SurfaceType = SurfaceType.StaticTexture) →
        e.state = AssetState.ASSET_STATE_REMOTE) ∧
      ((fileName.length ≤ 9 ∨
          ¬ ("http:".toList.isPrefixOf fileName = true ∨
            "ftp:".toList.isPrefixOf fileName = true ∨
            ("http".toList.isPrefixOf fileName = true ∧ charAt fileName 5 = ':'))) →
        e.state ≠ AssetState.ASSET_STATE_REMOTE) := by
  obtain ⟨_, e, he, ht, hs, _⟩ :=
    LoadTexture_new_entity fs w sIdentifier fileName SurfaceType.StaticTexture hlt hnew
  refine ⟨e, he, ht, ?_, ?_⟩
  · intro h
    rw [hs, isRemoteFile_of_scheme fileName h.1 h.2.1]
    rfl
  · intro h
    have hr : isRemoteFile fileName = false := by
      cases hr : isRemoteFile fileName with
      | false => rfl
      | true =>
        obtain ⟨h₁, h₂⟩ := scheme_of_isRemoteFile fileName hr
        rcases h with h | h
        · omega
        · exact absurd h₂ h
    rw [hs, hr]
    simp

/-- C10, witness: `http://a.b/c.png` requested as a static texture in an asset manager
without textures. -/
theorem LoadTexture_remote_state_witness :
    ∃ e, (LoadTexture treeDisk (construct (sourceConfig true false false) none ⟨[]⟩ ⟨[]⟩) []
        "http://a.b/c.png".toList SurfaceType.StaticTexture).world.TextureManager.get
        "http://a.b/c.png".toList = some e ∧
      e.state = AssetState.ASSET_STATE_REMOTE := by
  obtain ⟨e, he, ht, h₁, _⟩ := LoadTexture_remote_state treeDisk
    (construct (sourceConfig true false false) none ⟨[]⟩ ⟨[]⟩) [] "http://a.b/c.png".toList
    (by decide) (by decide)
  exact ⟨e, he, h₁ ⟨by decide, by decide, ht.trans (by decide)⟩⟩

/-- C10 (as stated) fails in both directions: `ftp://a.b` begins with `ftp://` and its
new static entity is not Remote (the name has only 9 characters), and `http:abcde.png`
does not begin with `http://` and its new static entity is Remote. -/
theorem LoadTexture_remote_state_counterexample :
    "ftp://".toList.isPrefixOf "ftp://a.b".toList = true ∧
    ((LoadTexture treeDisk (construct (sourceConfig true false false) none ⟨[]⟩ ⟨[]⟩) []
        "ftp://a.b".toList SurfaceType.StaticTexture).world.TextureManager.get
        "ftp://a.b".toList).map (fun e => e.state) = some AssetState.ASSET_STATE_NORMAL ∧
    "http://".toList.isPrefixOf "http:abcde.png".toList = false ∧
    ((LoadTexture treeDisk (construct (sourceConfig true false false) none ⟨[]⟩ ⟨[]⟩) []
        "http:abcde.png".toList SurfaceType.StaticTexture).world.TextureManager.get
        "http:abcde.png".toList).map (fun e => e.state) = some AssetState.ASSET_STATE_REMOTE := by
  decide

end ParaEngine

namespace ParaEngine

/-! ## Lemmas: the branches of `LoadTexture` -/

theorem isHtmlName_iff (fileName : Str) :
    isHtmlName fileName = true ↔
      (charAt fileName 1 = 'h' ∧ charAt fileName 2 = 't' ∧ charAt fileName 3 = 'm' ∧
        charAt fileName 4 = 'l' ∧ charAt fileName 5 = '>') := by
  simp [isHtmlName, and_assoc]

/-- A name that starts with `<` and is not an `<html>` name: NULL, nothing changes. -/
theorem LoadTexture_not_html (fs : FileSystem) (w : CParaWorldAsset)
    (sIdentifier fileName : Str) (nSurfaceType : SurfaceType)
    (h₀ : charAt fileName 0 = '<') (h₁ : isHtmlName fileName = false) :
    LoadTexture fs w sIdentifier fileName nSurfaceType = ⟨w, none, [], []⟩ := by
  have h₂ : ¬ (charAt fileName 1 = 'h' ∧ charAt fileName 2 = 't' ∧ charAt fileName 3 = 'm' ∧
      charAt fileName 4 = 'l' ∧ charAt fileName 5 = '>') := by
    intro h
    rw [(isHtmlName_iff fileName).mpr h] at h₁
    exact Bool.noConfusion h₁
  simp only [LoadTexture, h₀, if_true, h₂, if_false]

/-- An `<html>` name: the entity under `htmlKeyName` is looked up or created, then its
local file name and surface type are set. -/
theorem LoadTexture_html (fs : FileSystem) (w : CParaWorldAsset)
    (sIdentifier fileName : Str) (nSurfaceType : SurfaceType)
    (h₀ : charAt fileName 0 = '<') (h₁ : isHtmlName fileName = true) :
    LoadTexture fs w sIdentifier fileName nSurfaceType =
      ⟨{ w with TextureManager :=
          ((w.TextureManager.CreateEntity
            (freshTexture sIdentifier
              (htmlKeyName (fs.DecodePath (fs.ToCanonicalFilePath fileName))))
            (htmlKeyName (fs.DecodePath (fs.ToCanonicalFilePath fileName)))).1.modify
            (htmlKeyName (fs.DecodePath (fs.ToCanonicalFilePath fileName)))
            (fun e => { e with
              localFileName := c_str (htmlInitURL (fs.DecodePath (fs.ToCanonicalFilePath fileName)))
              SurfaceType := SurfaceType.HTMLTexture })) },
        some (htmlKeyName (fs.DecodePath (fs.ToCanonicalFilePath fileName))), [], []⟩ := by
  have h₂ := (isHtmlName_iff fileName).mp h₁
  simp only [LoadTexture, h₀, if_true, h₂, and_self]
  rfl

/-- A name outside the `<...>` syntax whose key is registered: the entity is returned
and nothing changes. -/
theorem LoadTexture_old (fs : FileSystem) (w : CParaWorldAsset)
    (sIdentifier fileName : Str) (nSurfaceType : SurfaceType) (e : TextureEntity)
    (h₀ : charAt fileName 0 ≠ '<')
    (hold : w.TextureManager.get (fs.DecodePath (fs.ToCanonicalFilePath fileName)) = some e) :
    LoadTexture fs w sIdentifier fileName nSurfaceType =
      ⟨w, some (fs.DecodePath (fs.ToCanonicalFilePath fileName)), [], []⟩ := by
  simp only [LoadTexture, h₀, if_false, AssetManager.CreateEntity_old _ _ e _ hold]
  rfl

/-- A name outside the `<...>` syntax whose key is new: the scripts and warnings. -/
theorem LoadTexture_new_effects (fs : FileSystem) (w : CParaWorldAsset)
    (sIdentifier fileName : Str) (nSurfaceType : SurfaceType)
    (h₀ : charAt fileName 0 ≠ '<')
    (hnew : w.TextureManager.get (fs.DecodePath (fs.ToCanonicalFilePath fileName)) = none) :
    (LoadTexture fs w sIdentifier fileName nSurfaceType).scripts =
      (if isRemoteFile fileName = true ∧
          resolvedSurfaceType fileName nSurfaceType = SurfaceType.StaticTexture then
        ["ParaAsset.GetRemoteTexture(\"".toList ++
          fs.DecodePath (fs.ToCanonicalFilePath fileName) ++ "\");".toList]
      else []) ∧
    (LoadTexture fs w sIdentifier fileName nSurfaceType).warnings =
      (if isRemoteFile fileName = true ∧
          resolvedSurfaceType fileName nSurfaceType ≠ SurfaceType.StaticTexture then
        [(fileName, resolvedSurfaceType fileName nSurfaceType)]
      else []) := by
  obtain ⟨h₁, _⟩ := AssetManager.CreateEntity_new w.TextureManager
    (freshTexture sIdentifier (fs.DecodePath (fs.ToCanonicalFilePath fileName)))
    (fs.DecodePath (fs.ToCanonicalFilePath fileName)) hnew
  simp only [LoadTexture, h₀, if_false, h₁, if_true]
  constructor
  · by_cases hr : isRemoteFile fileName = true <;>
      by_cases hs : resolvedSurfaceType fileName nSurfaceType = SurfaceType.StaticTexture <;>
      simp [hr, hs]
  · by_cases hr : isRemoteFile fileName = true <;>
      by_cases hs : resolvedSurfaceType fileName nSurfaceType = SurfaceType.StaticTexture <;>
      simp [hr, hs]

theorem isRemoteFile_lt (fileName : Str) (h₀ : charAt fileName 0 = '<') :
    isRemoteFile fileName = false := by
  simp [isRemoteFile, h₀]

end ParaEngine

namespace ParaEngine

/-! ## C11 and C12: remote textures and the scripting runtime -/

/-- C11 (the code at the failing input): `http://a.b/c.png` requested as a texture
sequence in an asset manager without textures. The new entity has surface type
`TextureSequence`, which is not `StaticTexture`, and is left in state Remote; a
warning is logged and no script is run. -/
theorem LoadTexture_remote_sequence_left_remote :
    ((LoadTexture treeDisk (construct (sourceConfig true false false) none ⟨[]⟩ ⟨[]⟩) []
        "http://a.b/c.png".toList SurfaceType.TextureSequence).world.TextureManager.get
        "http://a.b/c.png".toList).map (fun e => (e.SurfaceType, e.state)) =
      some (SurfaceType.TextureSequence, AssetState.ASSET_STATE_REMOTE) ∧
    (LoadTexture treeDisk (construct (sourceConfig true false false) none ⟨[]⟩ ⟨[]⟩) []
        "http://a.b/c.png".toList SurfaceType.TextureSequence).warnings =
      [("http://a.b/c.png".toList, SurfaceType.TextureSequence)] ∧
    (LoadTexture treeDisk (construct (sourceConfig true false false) none ⟨[]⟩ ⟨[]⟩) []
        "http://a.b/c.png".toList SurfaceType.TextureSequence).scripts = [] := by
  decide

/-- The same at a flash name: `http://a.b/c.swf` requested as a static texture gets
surface type `FlashTexture` and is left in state Remote, with a warning and no
script. -/
theorem LoadTexture_remote_flash_left_remote :
    ((LoadTexture treeDisk (construct (sourceConfig true false false) none ⟨[]⟩ ⟨[]⟩) []
        "http://a.b/c.swf".toList SurfaceType.StaticTexture).world.TextureManager.get
        "http://a.b/c.swf".toList).map (fun e => (e.SurfaceType, e.state)) =
      some (SurfaceType.FlashTexture, AssetState.ASSET_STATE_REMOTE) ∧
    (LoadTexture treeDisk (construct (sourceConfig true false false) none ⟨[]⟩ ⟨[]⟩) []
        "http://a.b/c.swf".toList SurfaceType.StaticTexture).warnings =
      [("http://a.b/c.swf".toList, SurfaceType.FlashTexture)] ∧
    (LoadTexture treeDisk (construct (sourceConfig true false false) none ⟨[]⟩ ⟨[]⟩) []
        "http://a.b/c.swf".toList SurfaceType.StaticTexture).scripts = [] := by
  decide

/-- C12: `LoadTexture` passes a script to the scripting runtime exactly when the key
was not registered before the call, the file name is classified remote and the
resulting surface type is `StaticTexture`; the script is
`ParaAsset.GetRemoteTexture("key");` with the canonical key. A second `LoadTexture`
of the same file name runs no script and returns the same entity. -/
theorem LoadTexture_script (fs : FileSystem) (w : CParaWorldAsset)
    (sIdentifier fileName : Str) (nSurfaceType : SurfaceType) :
    (LoadTexture fs w sIdentifier fileName nSurfaceType).scripts =
      (if w.TextureManager.get (fs.DecodePath (fs.ToCanonicalFilePath fileName)) = none ∧
          isRemoteFile fileName = true ∧
          resolvedSurfaceType fileName nSurfaceType = SurfaceType.StaticTexture then
        ["ParaAsset.GetRemoteTexture(\"".toList ++
          fs.DecodePath (fs.ToCanonicalFilePath fileName) ++ "\");".toList]
      else []) ∧
    (∀ (sIdentifier₂ : Str) (nSurfaceType₂ : SurfaceType),
      (LoadTexture fs (LoadTexture fs w sIdentifier fileName nSurfaceType).world
        sIdentifier₂ fileName nSurfaceType₂).scripts = [] ∧
      (LoadTexture fs (LoadTexture fs w sIdentifier fileName nSurfaceType).world
        sIdentifier₂ fileName nSurfaceType₂).entity =
        (LoadTexture fs w sIdentifier fileName nSurfaceType).entity) := by
  by_cases h₀ : charAt fileName 0 = '<'
  · have hr := isRemoteFile_lt fileName h₀
    cases hh : isHtmlName fileName with
    | false =>
      refine ⟨?_, fun s₂ t₂ => ?_⟩
      · rw [LoadTexture_not_html fs w _ _ _ h₀ hh]
        simp [hr]
      · rw [LoadTexture_not_html fs w _ _ _ h₀ hh, LoadTexture_not_html fs w _ _ _ h₀ hh]
        exact ⟨rfl, rfl⟩
    | true =>
      refine ⟨?_, fun s₂ t₂ => ?_⟩
      · rw [LoadTexture_html fs w _ _ _ h₀ hh]
        simp [hr]
      · rw [LoadTexture_html fs _ s₂ _ t₂ h₀ hh, LoadTexture_html fs w _ _ _ h₀ hh]
        exact ⟨rfl, rfl⟩
  · cases hg : w.TextureManager.get (fs.DecodePath (fs.ToCanonicalFilePath fileName)) with
    | some e =>
      have h₁ := LoadTexture_old fs w sIdentifier fileName nSurfaceType e h₀ hg
      refine ⟨?_, fun s₂ t₂ => ?_⟩
      · rw [h₁]
        simp
      · rw [h₁, LoadTexture_old fs w s₂ fileName t₂ e h₀ hg]
        exact ⟨rfl, rfl⟩
    | none =>
      obtain ⟨hent, e, he, _⟩ :=
        LoadTexture_new_entity fs w sIdentifier fileName nSurfaceType h₀ hg
      refine ⟨?_, fun s₂ t₂ => ?_⟩
      · rw [(LoadTexture_new_effects fs w sIdentifier fileName nSurfaceType h₀ hg).1]
        simp
      · rw [LoadTexture_old fs _ s₂ fileName t₂ e h₀ he, hent]
        exact ⟨rfl, rfl⟩

end ParaEngine

namespace ParaEngine

/-! ## C13: `UnloadAssetByKeyName` on a failed entity -/

/-- On a texture key (`dds`, `png`) whose entity failed to load, `UnloadAssetByKeyName`
returns true and leaves the entity registered, in state `ASSET_STATE_NORMAL`, with an
empty local file name. -/
theorem UnloadAssetByKeyName_texture_failed (cfg : BuildConfig) (w : CParaWorldAsset)
    (keyname : Str) (e : TextureEntity)
    (hext : GetFileExtension keyname = "dds".toList ∨ GetFileExtension keyname = "png".toList)
    (hget : w.TextureManager.get keyname = some e)
    (hstate : e.state = AssetState.ASSET_STATE_FAILED_TO_LOAD) :
    (UnloadAssetByKeyName cfg w keyname).2 = true ∧
    ∃ e', (UnloadAssetByKeyName cfg w keyname).1.TextureManager.get keyname = some e' ∧
      e'.state = AssetState.ASSET_STATE_NORMAL ∧ e'.localFileName = [] := by
  simp only [UnloadAssetByKeyName, hext, if_true, hget, hstate, true_or]
  refine ⟨trivial, unloadTexture e, ?_, ?_, ?_⟩
  · rw [AssetManager.get_modify, hget]
    simp
  · simp [unloadTexture, TextureEntity.UnloadAsset, hstate]
  · simp only [unloadTexture, TextureEntity.UnloadAsset]
    split <;> rfl

/-- C13 (the code at the failing input): the key `models/a.x` dispatches to the mesh
registry, where its entity is in state `ASSET_STATE_FAILED_TO_LOAD` and not loaded.
`UnloadAssetByKeyName` returns false and the entity stays in the failed state with
its local file name, while the texture key `textures/a.dds` in the same situation is
reset. -/
theorem UnloadAssetByKeyName_mesh_failed :
    GetFileExtension "models/a.x".toList = "x".toList ∧
    (UnloadAssetByKeyName (sourceConfig true false false) failedAssets
      "models/a.x".toList).2 = false ∧
    ((UnloadAssetByKeyName (sourceConfig true false false) failedAssets
      "models/a.x".toList).1.MeshManager.get "models/a.x".toList).map
        (fun e => (e.state, e.localFileName)) =
      some (AssetState.ASSET_STATE_FAILED_TO_LOAD, "temp/a.x".toList) ∧
    (UnloadAssetByKeyName (sourceConfig true false false) failedAssets
      "textures/a.dds".toList).2 = true ∧
    ((UnloadAssetByKeyName (sourceConfig true false false) failedAssets
      "textures/a.dds".toList).1.TextureManager.get "textures/a.dds".toList).map
        (fun e => (e.state, e.localFileName)) =
      some (AssetState.ASSET_STATE_NORMAL, []) := by
  decide

/-! ## C14 and C17: garbage collection and device invalidation -/

/-- C14 (the code at the failing input): in a build without `USE_DIRECTX_RENDERER`,
`GarbageCollectAll` calls the texture, font, database, buffer-picking, mesh, ParaX and
effect registries once each and never the sequence registry, into which
`LoadSequence` creates entities in every build; in a DirectX build it calls each of
the eight once. -/
theorem GarbageCollectAll_sequence_skipped :
    loadRegistries.map (fun c =>
        (GarbageCollectAll ⟨false, false, false, false⟩).count
          (c, Operation.GarbageCollectAll)) = [1, 1, 1, 1, 1, 1, 1, 0] ∧
    loadRegistries.getLast? = some Component.SequenceManager ∧
    loadRegistries.map (fun c =>
        (GarbageCollectAll ⟨false, true, false, false⟩).count
          (c, Operation.GarbageCollectAll)) = [1, 1, 1, 1, 1, 1, 1, 1] := by
  decide

/-- C17 (the code at the failing input): in a build with `USE_DIRECTX_RENDERER`,
`InvalidateDeviceObjects` calls `InitDeviceObjects` on the CAD-model manager, which is
no release operation, and never calls its `InvalidateDeviceObjects`; every other call
on a component is a release operation. -/
theorem InvalidateDeviceObjects_inits_cad :
    (Component.CadModelManager, Operation.InitDeviceObjects) ∈
      InvalidateDeviceObjects ⟨false, true, true, false⟩ 2 ∧
    isReleaseOperation Operation.InitDeviceObjects = false ∧
    (Component.CadModelManager, Operation.InvalidateDeviceObjects) ∉
      InvalidateDeviceObjects ⟨false, true, true, false⟩ 2 ∧
    (InvalidateDeviceObjects ⟨false, true, true, false⟩ 2).filter
        (fun call => !isReleaseOperation call.2) =
      [(Component.CadModelManager, Operation.InitDeviceObjects),
       (Component.AssetManager, Operation.OnInvalidateDeviceObjects)] := by
  decide

/-! ## C19 and C20: indices -/

/-- For a non-negative `nAssetID` the index of `LoadParaXByID` is in the table. -/
theorem readModel_of_nonneg (nAssetID : Int) (h : 0 ≤ nAssetID) :
    0 ≤ modelIndex nAssetID ∧ modelIndex nAssetID < 4 ∧
    (readModel (modelIndex nAssetID)).isSome = true := by
  have h₁ : 0 ≤ modelIndex nAssetID := Int.tmod_nonneg 4 h
  have h₂ : modelIndex nAssetID < 4 := Int.tmod_lt_of_pos nAssetID (by decide)
  refine ⟨h₁, h₂, ?_⟩
  obtain ⟨n, hn⟩ := Int.eq_ofNat_of_zero_le h₁
  rw [hn] at h₂ ⊢
  have hn4 : n < 4 := by omega
  simp only [readModel, Int.toNat_ofNat]
  interval_cases n <;> decide

/-- C19 (the code at the failing input): for `nAssetID = -1` the index `nAssetID % 4`
is `-1`, outside `0..3`, and `LoadParaXByID` reads `models_` outside its four
entries. -/
theorem LoadParaXByID_negative_index :
    modelIndex (-1) = -1 ∧
    readModel (modelIndex (-1)) = none ∧
    (LoadParaXByID treeDisk (construct (sourceConfig true false false) none ⟨[]⟩ ⟨[]⟩)
      (-1)).isSome = false := by
  decide

/-- For an index that is not negative, `GetChildAttributeObject` returns the
registered attribute model at that index, or NULL when there is none. -/
theorem GetChildAttributeObject_of_nonneg (w : CParaWorldAsset) (n : Nat) (h : n < 2 ^ 64) :
    GetChildAttributeObject w (n : Int) =
      (match w.m_attribute_models.get? n with
        | some c => AttributeObject.model c
        | none => AttributeObject.NULL) := by
  have hmod : ((n : Int) % 2 ^ 64).toNat = n := by
    have : (n : Int) % 2 ^ 64 = (n : Int) := Int.emod_eq_of_lt (Int.ofNat_nonneg n) (by exact_mod_cast h)
    rw [this]
    rfl
  simp only [GetChildAttributeObject, hmod, Nat.cast_lt]
  by_cases hlt : n < w.m_attribute_models.length
  · simp only [hlt, if_true]
    rw [List.get?_eq_get hlt]
  · simp only [hlt, if_false]
    rw [List.get?_eq_none.mpr (not_lt.mp hlt)]

/-- C20 (the code at the failing input): for `nRowIndex = -1` the only test,
`nRowIndex < (int)m_attribute_models.size()`, holds, and `GetChildAttributeObject`
reads `m_attribute_models` outside its elements instead of returning NULL. -/
theorem GetChildAttributeObject_negative_index :
    GetChildAttributeObjectCount (construct (sourceConfig true false false) none ⟨[]⟩ ⟨[]⟩) = 11 ∧
    GetChildAttributeObject (construct (sourceConfig true false false) none ⟨[]⟩ ⟨[]⟩) (-1) =
      AttributeObject.outOfBounds ∧
    GetChildAttributeObject (construct (sourceConfig true false false) none ⟨[]⟩ ⟨[]⟩) 0 =
      AttributeObject.model Component.TextureManager ∧
    GetChildAttributeObject (construct (sourceConfig true false false) none ⟨[]⟩ ⟨[]⟩) 11 =
      AttributeObject.NULL := by
  decide

end ParaEngine

namespace ParaEngine

/-! ## C15: texture sequence names -/

theorem charAt_append_add (a b : Str) (j : Nat) :
    charAt (a ++ b) (a.length + j) = charAt b j := by
  unfold charAt
  rw [List.getD_append_right _ _ _ _ (Nat.le_add_right _ _)]
  simp

theorem digit_toNat (d : Char) (h : '0' ≤ d ∧ d ≤ '9') : 48 ≤ d.toNat ∧ d.toNat ≤ 57 := by
  obtain ⟨h₁, h₂⟩ := h
  have a : '0'.toNat ≤ d.toNat := h₁
  have b : d.toNat ≤ '9'.toNat := h₂
  exact ⟨a, b⟩

theorem eq_zero_digit_of_toNat (d : Char) (h : d.toNat = 48) : d = '0' := by
  apply Char.ext
  apply UInt32.ext
  exact h

/-- The digits of a name `stem_aNNN.dds` with a non-empty stem are read as a positive
count unless they are all zero. -/
theorem textureSequenceTotal_pos (stem : Str) (d₁ d₂ d₃ : Char) (hstem : stem ≠ [])
    (h₁ : '0' ≤ d₁ ∧ d₁ ≤ '9') (h₂ : '0' ≤ d₂ ∧ d₂ ≤ '9') (h₃ : '0' ≤ d₃ ∧ d₃ ≤ '9')
    (hnz : ¬ (d₁ = '0' ∧ d₂ = '0' ∧ d₃ = '0')) :
    textureSequenceTotal (stem ++ '_' :: 'a' :: d₁ :: d₂ :: d₃ :: ".dds".toList) > 0 := by
  have hpos : 0 < stem.length := List.length_pos.mpr hstem
  have hlen : (stem ++ '_' :: 'a' :: d₁ :: d₂ :: d₃ :: ".dds".toList).length =
      stem.length + 9 := by
    simp
  simp only [textureSequenceTotal, hlen]
  have e₁ : stem.length + 9 - 8 = stem.length + 1 := by omega
  have e₂ : stem.length + 9 - 9 = stem.length + 0 := by omega
  have e₃ : stem.length + 9 - 5 - 0 = stem.length + 4 := by omega
  have e₄ : stem.length + 9 - 5 - (0 + 1) = stem.length + 3 := by omega
  have e₅ : stem.length + 9 - 5 - (0 + 1 + 1) = stem.length + 2 := by omega
  have hgt : stem.length + 9 > 9 := by omega
  simp only [hgt, if_true, e₁, e₂, charAt_append_add, sequenceDigits, e₃, e₄, e₅]
  simp only [charAt, List.getD_cons_zero, List.getD_cons_succ, and_self, if_true, h₁, h₂, h₃]
  obtain ⟨a₁, b₁⟩ := digit_toNat d₁ h₁
  obtain ⟨a₂, b₂⟩ := digit_toNat d₂ h₂
  obtain ⟨a₃, b₃⟩ := digit_toNat d₃ h₃
  have hne : d₁.toNat ≠ 48 ∨ d₂.toNat ≠ 48 ∨ d₃.toNat ≠ 48 := by
    by_contra hc
    simp only [not_or, not_not] at hc
    exact hnz ⟨eq_zero_digit_of_toNat _ hc.1, eq_zero_digit_of_toNat _ hc.2.1,
      eq_zero_digit_of_toNat _ hc.2.2⟩
  have z : ('0'.toNat : Int) = 48 := by decide
  rw [z]
  norm_num
  omega

theorem isFlashFile_dds (stem : Str) (d₁ d₂ d₃ : Char) :
    isFlashFile (stem ++ '_' :: 'a' :: d₁ :: d₂ :: d₃ :: ".dds".toList) = false := by
  have hlen : (stem ++ '_' :: 'a' :: d₁ :: d₂ :: d₃ :: ".dds".toList).length =
      stem.length + 9 := by
    simp
  have e₁ : stem.length + 9 - 3 = stem.length + 6 := by omega
  simp only [isFlashFile, hlen, e₁, charAt_append_add]
  simp [charAt]

/-- C15 (as amended): for every file name that has at least one character before the
suffix, does not start with `<`, begins neither with `http:` nor with `ftp:` nor with
`http`, one more character and `:`, and ends with `_a`, three decimal digits that are
not all zero, and `.dds`, a texture entity newly created by `LoadTexture` gets surface
type `TextureSequence` whatever surface type the caller requested. -/
theorem LoadTexture_sequence_name (fs : FileSystem) (w : CParaWorldAsset)
    (sIdentifier : Str) (nSurfaceType : SurfaceType) (stem : Str) (d₁ d₂ d₃ : Char)
    (hstem : stem ≠ [])
    (hlt : charAt (stem ++ '_' :: 'a' :: d₁ :: d₂ :: d₃ :: ".dds".toList) 0 ≠ '<')
    (hscheme : ¬ ("http:".toList.isPrefixOf
        (stem ++ '_' :: 'a' :: d₁ :: d₂ :: d₃ :: ".dds".toList) = true ∨
      "ftp:".toList.isPrefixOf
        (stem ++ '_' :: 'a' :: d₁ :: d₂ :: d₃ :: ".dds".toList) = true ∨
      ("http".toList.isPrefixOf
          (stem ++ '_' :: 'a' :: d₁ :: d₂ :: d₃ :: ".dds".toList) = true ∧
        charAt (stem ++ '_' :: 'a' :: d₁ :: d₂ :: d₃ :: ".dds".toList) 5 = ':')))
    (h₁ : '0' ≤ d₁ ∧ d₁ ≤ '9') (h₂ : '0' ≤ d₂ ∧ d₂ ≤ '9') (h₃ : '0' ≤ d₃ ∧ d₃ ≤ '9')
    (hnz : ¬ (d₁ = '0' ∧ d₂ = '0' ∧ d₃ = '0'))
    (hnew : w.TextureManager.get (fs.DecodePath (fs.ToCanonicalFilePath
      (stem ++ '_' :: 'a' :: d₁ :: d₂ :: d₃ :: ".dds".toList))) = none) :
    ∃ e, (LoadTexture fs w sIdentifier (stem ++ '_' :: 'a' :: d₁ :: d₂ :: d₃ :: ".dds".toList)
        nSurfaceType).world.TextureManager.get (fs.DecodePath (fs.ToCanonicalFilePath
          (stem ++ '_' :: 'a' :: d₁ :: d₂ :: d₃ :: ".dds".toList))) = some e ∧
      e.SurfaceType = SurfaceType.TextureSequence := by
  obtain ⟨_, e, he, hs, _⟩ := LoadTexture_new_entity fs w sIdentifier
    (stem ++ '_' :: 'a' :: d₁ :: d₂ :: d₃ :: ".dds".toList) nSurfaceType hlt hnew
  refine ⟨e, he, ?_⟩
  have hr : isRemoteFile (stem ++ '_' :: 'a' :: d₁ :: d₂ :: d₃ :: ".dds".toList) = false := by
    cases hr : isRemoteFile (stem ++ '_' :: 'a' :: d₁ :: d₂ :: d₃ :: ".dds".toList) with
    | false => rfl
    | true => exact absurd (scheme_of_isRemoteFile _ hr).2 hscheme
  have ht := textureSequenceTotal_pos stem d₁ d₂ d₃ hstem h₁ h₂ h₃ hnz
  rw [hs]
  simp only [resolvedSurfaceType, hr, isFlashFile_dds, Bool.not_false, Bool.true_and,
    decide_eq_true_eq, ht, if_true, Bool.false_eq_true, if_false]

/-- C15, witness: the local path `httpdir/t_a012.dds` requested as a static texture. -/
theorem LoadTexture_sequence_name_witness :
    ∃ e, (LoadTexture treeDisk (construct (sourceConfig true false false) none ⟨[]⟩ ⟨[]⟩) []
        "httpdir/t_a012.dds".toList SurfaceType.StaticTexture).world.TextureManager.get
        "httpdir/t_a012.dds".toList = some e ∧
      e.SurfaceType = SurfaceType.TextureSequence :=
  LoadTexture_sequence_name treeDisk (construct (sourceConfig true false false) none ⟨[]⟩ ⟨[]⟩)
    [] SurfaceType.StaticTexture "httpdir/t".toList '0' '1' '2' (by decide) (by decide)
    (by decide) (by decide) (by decide) (by decide) (by decide) (by decide)

/-- C15 (as stated) fails: requested as static textures, `tex_a000.dds` (digits all
zero), `_a001.dds` (nothing before the suffix) and `http://a.b/t_a001.dds` (a remote
name) get surface type `StaticTexture`, and `<html>x_a001.dds` gets `HTMLTexture`
under the key `<html>`. -/
theorem LoadTexture_sequence_name_counterexample :
    ((LoadTexture treeDisk (construct (sourceConfig true false false) none ⟨[]⟩ ⟨[]⟩) []
        "tex_a000.dds".toList SurfaceType.StaticTexture).world.TextureManager.get
        "tex_a000.dds".toList).map (fun e => e.SurfaceType) = some SurfaceType.StaticTexture ∧
    ((LoadTexture treeDisk (construct (sourceConfig true false false) none ⟨[]⟩ ⟨[]⟩) []
        "_a001.dds".toList SurfaceType.StaticTexture).world.TextureManager.get
        "_a001.dds".toList).map (fun e => e.SurfaceType) = some SurfaceType.StaticTexture ∧
    ((LoadTexture treeDisk (construct (sourceConfig true false false) none ⟨[]⟩ ⟨[]⟩) []
        "http://a.b/t_a001.dds".toList SurfaceType.StaticTexture).world.TextureManager.get
        "http://a.b/t_a001.dds".toList).map (fun e => e.SurfaceType) =
      some SurfaceType.StaticTexture ∧
    ((LoadTexture treeDisk (construct (sourceConfig true false false) none ⟨[]⟩ ⟨[]⟩) []
        "<html>x_a001.dds".toList SurfaceType.StaticTexture).world.TextureManager.get
        "<html>".toList).map (fun e => e.SurfaceType) = some SurfaceType.HTMLTexture := by
  decide

end ParaEngine

namespace ParaEngine

/-! ## C16 and C18: `<html>` names and registered keys -/

theorem find_first_of_append (pre s chars : Str) (h : ∀ x ∈ pre, chars.contains x = false) :
    find_first_of (pre ++ s) chars = (find_first_of s chars).map (· + pre.length) := by
  induction pre with
  | nil => simp
  | cons c t ih =>
    have hc : chars.contains c = false := h c (List.mem_cons_self _ _)
    have ih' := ih (fun x hx => h x (List.mem_cons_of_mem _ hx))
    simp only [List.cons_append, find_first_of, hc, Bool.false_eq_true, if_false,
      List.append_eq]
    rw [ih']
    cases find_first_of s chars <;> simp [Nat.add_assoc]

theorem isHtmlName_append (rest : Str) : isHtmlName ("<html>".toList ++ rest) = true := by
  simp [isHtmlName, charAt]

theorem charAt_zero_html (rest : Str) : charAt ("<html>".toList ++ rest) 0 = '<' := by
  simp [charAt]

/-- A name `<html>name#url` whose `name` has no separator: the key and the URL. -/
theorem html_named (name url : Str) (hname : ∀ x ∈ name, htmlSeparators.contains x = false) :
    htmlKeyName ("<html>".toList ++ name ++ '#' :: url) = "<html>".toList ++ name ∧
    htmlInitURL ("<html>".toList ++ name ++ '#' :: url) = url := by
  have hhtml : ∀ x ∈ "<html>".toList, htmlSeparators.contains x = false := by decide
  have hpre : ∀ x ∈ "<html>".toList ++ name, htmlSeparators.contains x = false := by
    intro x hx
    rcases List.mem_append.mp hx with h | h
    · exact hhtml x h
    · exact hname x h
  have hfind : find_first_of ("<html>".toList ++ name ++ '#' :: url) htmlSeparators =
      some ("<html>".toList ++ name).length := by
    rw [find_first_of_append _ _ _ hpre]
    simp [find_first_of, htmlSeparators]
  have hat : charAt ("<html>".toList ++ name ++ '#' :: url) ("<html>".toList ++ name).length =
      '#' := charAt_append_mid _ _ _
  have hpos : ("<html>".toList ++ name).length > 0 := by simp
  have hnp : htmlNamePos ("<html>".toList ++ name ++ '#' :: url) =
      some ("<html>".toList ++ name).length := by
    simp only [htmlNamePos, hfind, hat, hpos, and_self, if_true]
  constructor
  · simp only [htmlKeyName, hnp]
    exact List.take_left' rfl
  · simp only [htmlInitURL, hnp]
    exact drop_append_mid _ _ _

/-- A name `<html>url` whose first separator, if any, is not `#`: the key and the URL. -/
theorem html_unnamed (url : Str)
    (hurl : find_first_of url htmlSeparators = none ∨
      ∃ n, find_first_of url htmlSeparators = some n ∧ charAt url n ≠ '#') :
    htmlKeyName ("<html>".toList ++ url) = "<html>".toList ∧
    htmlInitURL ("<html>".toList ++ url) = url := by
  have hpre : ∀ x ∈ "<html>".toList, htmlSeparators.contains x = false := by decide
  have hnp : htmlNamePos ("<html>".toList ++ url) = none := by
    simp only [htmlNamePos, find_first_of_append _ _ _ hpre]
    rcases hurl with h | ⟨n, h, hn⟩
    · simp [h]
    · have hat : charAt ("<html>".toList ++ url) (n + "<html>".toList.length) = charAt url n := by
        rw [Nat.add_comm]
        exact charAt_append_add _ _ _
      simp only [h, Option.map_some', hat, hn, and_false, if_false]
  constructor
  · simp only [htmlKeyName, hnp]
  · simp only [htmlInitURL, hnp]
    rfl

theorem get_create_modify {E : Type} (mgr : AssetManager E) (fresh : E) (key : Str)
    (f : E → E) :
    ((mgr.CreateEntity fresh key).1.modify key f).get key =
      some (f ((mgr.get key).getD fresh)) := by
  rw [AssetManager.get_modify]
  cases h : mgr.get key with
  | none =>
    rw [(AssetManager.CreateEntity_new mgr fresh key h).2]
    simp
  | some e =>
    rw [AssetManager.CreateEntity_old mgr fresh e key h, h]
    simp

theorem html_of_isHtmlName (fileName : Str) (h₀ : charAt fileName 0 = '<')
    (h₁ : isHtmlName fileName = true) : "<html>".toList.isPrefixOf fileName = true := by
  have h := (isHtmlName_iff fileName).mp h₁
  match fileName, h₀, h with
  | [], h₀, _ => simp [charAt] at h₀
  | [_], _, h => simp [charAt] at h
  | [_, _], _, h => simp [charAt] at h
  | [_, _, _], _, h => simp [charAt] at h
  | [_, _, _, _], _, h => simp [charAt] at h
  | [_, _, _, _, _], _, h => simp [charAt] at h
  | a :: b :: c :: d :: e :: f :: t, h₀, h =>
    simp only [charAt, List.getD_cons_zero, List.getD_cons_succ] at h₀ h
    obtain ⟨rfl, rfl, rfl, rfl, rfl⟩ := h
    subst h₀
    simp [List.isPrefixOf]

/-- C16 (as amended): when the canonical form of the file name is the file name,
`LoadTexture` of `<html>name#url`, where `name` has none of the characters `# . / \ :`,
looks up or creates the entity under the key `<html>name` and sets its local file name
to `url` up to its first NUL character (to `url` itself when it has none);
`LoadTexture` of `<html>url`, where the first of `# . / \ :` in `url`, if any, is not
`#`, does the same under the key `<html>`; `<html>No1#www.paraengine.com` gives the key
`<html>No1` and the URL `www.paraengine.com`. A file name that starts with `<` but not
with `<html>` returns NULL and changes nothing. -/
theorem LoadTexture_html_names (fs : FileSystem) (w : CParaWorldAsset)
    (sIdentifier : Str) (nSurfaceType : SurfaceType) :
    (∀ (name url : Str), (∀ x ∈ name, htmlSeparators.contains x = false) →
      fs.DecodePath (fs.ToCanonicalFilePath ("<html>".toList ++ name ++ '#' :: url)) =
        "<html>".toList ++ name ++ '#' :: url →
      (LoadTexture fs w sIdentifier ("<html>".toList ++ name ++ '#' :: url) nSurfaceType).entity =
        some ("<html>".toList ++ name) ∧
      (LoadTexture fs w sIdentifier ("<html>".toList ++ name ++ '#' :: url)
          nSurfaceType).world.TextureManager.get ("<html>".toList ++ name) =
        some { (w.TextureManager.get ("<html>".toList ++ name)).getD
            (freshTexture sIdentifier ("<html>".toList ++ name)) with
          localFileName := c_str url
          SurfaceType := SurfaceType.HTMLTexture } ∧
      ((∀ c ∈ url, c ≠ '\x00') → c_str url = url)) ∧
    (∀ (url : Str), (find_first_of url htmlSeparators = none ∨
        ∃ n, find_first_of url htmlSeparators = some n ∧ charAt url n ≠ '#') →
      fs.DecodePath (fs.ToCanonicalFilePath ("<html>".toList ++ url)) = "<html>".toList ++ url →
      (LoadTexture fs w sIdentifier ("<html>".toList ++ url) nSurfaceType).entity =
        some "<html>".toList ∧
      (LoadTexture fs w sIdentifier ("<html>".toList ++ url)
          nSurfaceType).world.TextureManager.get "<html>".toList =
        some { (w.TextureManager.get "<html>".toList).getD
            (freshTexture sIdentifier "<html>".toList) with
          localFileName := c_str url
          SurfaceType := SurfaceType.HTMLTexture } ∧
      ((∀ c ∈ url, c ≠ '\x00') → c_str url = url)) ∧
    (∀ (fileName : Str), charAt fileName 0 = '<' →
      "<html>".toList.isPrefixOf fileName = false →
      LoadTexture fs w sIdentifier fileName nSurfaceType = ⟨w, none, [], []⟩) ∧
    ((LoadTexture treeDisk (construct (sourceConfig true false false) none ⟨[]⟩ ⟨[]⟩) []
        "<html>No1#www.paraengine.com".toList SurfaceType.StaticTexture).world.TextureManager.get
        "<html>No1".toList).map (fun e => e.localFileName) =
      some "www.paraengine.com".toList := by
  refine ⟨?_, ?_, ?_, by decide⟩
  · intro name url hname hcanon
    have hh : isHtmlName ("<html>".toList ++ name ++ '#' :: url) = true := by
      rw [List.append_assoc]; exact isHtmlName_append _
    have h₀ : charAt ("<html>".toList ++ name ++ '#' :: url) 0 = '<' := by
      rw [List.append_assoc]; exact charAt_zero_html _
    obtain ⟨hk, hu⟩ := html_named name url hname
    rw [LoadTexture_html fs w _ _ _ h₀ hh, hcanon, hk, hu]
    exact ⟨rfl, get_create_modify _ _ _ _, fun hnul => c_str_eq_self url hnul⟩
  · intro url hurl hcanon
    have hh : isHtmlName ("<html>".toList ++ url) = true := isHtmlName_append _
    have h₀ : charAt ("<html>".toList ++ url) 0 = '<' := charAt_zero_html _
    obtain ⟨hk, hu⟩ := html_unnamed url hurl
    rw [LoadTexture_html fs w _ _ _ h₀ hh, hcanon, hk, hu]
    exact ⟨rfl, get_create_modify _ _ _ _, fun hnul => c_str_eq_self url hnul⟩
  · intro fileName h₀ hnot
    apply LoadTexture_not_html fs w _ _ _ h₀
    cases hh : isHtmlName fileName with
    | false => rfl
    | true =>
      rw [html_of_isHtmlName fileName h₀ hh] at hnot
      exact Bool.noConfusion hnot

/-- C16 (as stated) fails: for `<html>No1#a` followed by a NUL character and `b`, the
URL part has three characters and the local file name is set to `a`, its part before
the NUL. -/
theorem LoadTexture_html_names_counterexample :
    ((LoadTexture treeDisk (construct (sourceConfig true false false) none ⟨[]⟩ ⟨[]⟩) []
        ("<html>No1".toList ++ '#' :: ['a', '\x00', 'b'])
        SurfaceType.StaticTexture).world.TextureManager.get
        "<html>No1".toList).map (fun e => e.localFileName) = some ['a'] ∧
    treeDisk.DecodePath (treeDisk.ToCanonicalFilePath
        ("<html>No1".toList ++ '#' :: ['a', '\x00', 'b'])) =
      "<html>No1".toList ++ '#' :: ['a', '\x00', 'b'] ∧
    ['a'] ≠ ['a', '\x00', 'b'] := by
  decide

/-- C18 (as amended): for a file name that does not start with `<`, when the key is
already registered `LoadTexture` returns the existing entity and changes nothing. For
an `<html>` name whose key is already registered, the existing entity is returned with
its local file name set to the URL of this call and its surface type set to
`HTMLTexture`; its state, async flag and other fields are unchanged, and so is every
other entity. -/
theorem LoadTexture_registered_key (fs : FileSystem) (w : CParaWorldAsset)
    (sIdentifier fileName : Str) (nSurfaceType : SurfaceType) (e : TextureEntity) :
    (charAt fileName 0 ≠ '<' →
      w.TextureManager.get (fs.DecodePath (fs.ToCanonicalFilePath fileName)) = some e →
      LoadTexture fs w sIdentifier fileName nSurfaceType =
        ⟨w, some (fs.DecodePath (fs.ToCanonicalFilePath fileName)), [], []⟩) ∧
    (charAt fileName 0 = '<' → isHtmlName fileName = true →
      w.TextureManager.get (htmlKeyName (fs.DecodePath (fs.ToCanonicalFilePath fileName))) =
        some e →
      (LoadTexture fs w sIdentifier fileName nSurfaceType).entity =
        some (htmlKeyName (fs.DecodePath (fs.ToCanonicalFilePath fileName))) ∧
      (LoadTexture fs w sIdentifier fileName nSurfaceType).world.TextureManager.get
          (htmlKeyName (fs.DecodePath (fs.ToCanonicalFilePath fileName))) =
        some { e with
          localFileName := c_str (htmlInitURL (fs.DecodePath (fs.ToCanonicalFilePath fileName)))
          SurfaceType := SurfaceType.HTMLTexture } ∧
      ∀ k, k ≠ htmlKeyName (fs.DecodePath (fs.ToCanonicalFilePath fileName)) →
        (LoadTexture fs w sIdentifier fileName nSurfaceType).world.TextureManager.get k =
          w.TextureManager.get k) := by
  refine ⟨fun h₀ hold => LoadTexture_old fs w sIdentifier fileName nSurfaceType e h₀ hold, ?_⟩
  intro h₀ hh hold
  rw [LoadTexture_html fs w _ _ _ h₀ hh]
  refine ⟨rfl, ?_, ?_⟩
  · show ((w.TextureManager.CreateEntity _ _).1.modify _ _).get _ = _
    rw [get_create_modify, hold]
    rfl
  · intro k hk
    show ((w.TextureManager.CreateEntity _ _).1.modify _ _).get k = _
    rw [AssetManager.get_modify, AssetManager.CreateEntity_old _ _ e _ hold]
    simp [hk]

/-- C18 (as stated) fails: after `<html>www.a.com` has registered the key `<html>` with
local file name `www.a.com`, loading `<html>www.b.com` returns that entity with local
file name `www.b.com`. -/
theorem LoadTexture_registered_key_counterexample :
    ((LoadTexture treeDisk (construct (sourceConfig true false false) none ⟨[]⟩ ⟨[]⟩) []
        "<html>www.a.com".toList SurfaceType.StaticTexture).world.TextureManager.get
        "<html>".toList).map (fun e => e.localFileName) = some "www.a.com".toList ∧
    (LoadTexture treeDisk
        (LoadTexture treeDisk (construct (sourceConfig true false false) none ⟨[]⟩ ⟨[]⟩) []
          "<html>www.a.com".toList SurfaceType.StaticTexture).world []
        "<html>www.b.com".toList SurfaceType.StaticTexture).entity = some "<html>".toList ∧
    ((LoadTexture treeDisk
        (LoadTexture treeDisk (construct (sourceConfig true false false) none ⟨[]⟩ ⟨[]⟩) []
          "<html>www.a.com".toList SurfaceType.StaticTexture).world []
        "<html>www.b.com".toList SurfaceType.StaticTexture).world.TextureManager.get
        "<html>".toList).map (fun e => e.localFileName) = some "www.b.com".toList := by
  decide

end ParaEngine

